import Mathlib

/-!
Shallow embedding of the PE-file parser from `src/parser` (Rust, using the
winnow parsing library and the iced-x86 instruction decoder).

Modelling conventions:
* A byte buffer is a `List Nat` (each entry the value of one `u8`).
* Machine integers are `Nat`; where the Rust source performs wrapping
  arithmetic on `u32`/`usize` (release-mode overflow semantics), the
  embedding writes the reduction `% 2^32` / `% 2^64` explicitly.
* winnow's `PResult` over a `&mut &[u8]` cursor becomes the state-passing
  type `P α = List Nat → Except ErrMode α × List Nat`: the second component
  is the final cursor (also on failure, mirroring the mutable borrow).
* `take_while(n, pred)` with an exact count is `take_exact`; it fails with
  `ErrorKind.Slice` without consuming, as winnow does on complete input.
  `take_while(0..=n, |_| true)` is `List.take n` and always succeeds.
* Rust `String` values that originate from byte buffers (magic, section
  names) are kept as their byte lists.
-/

/-- winnow `ErrorKind` values used by the source (`Slice` is what
`take_while` reports; `Verify`, `Fail`, `Eof` appear in explicit
`from_error_kind` calls). -/
inductive ErrorKind where
  | Slice
  | Verify
  | Fail
  | Eof
  deriving DecidableEq, Repr

/-- winnow `ErrMode`: `Incomplete (Needed::new n)` or a backtrack error with
a kind. The `Cut` variant is never used by the source. -/
inductive ErrMode where
  | Incomplete (n : Nat)
  | Backtrack (k : ErrorKind)
  deriving DecidableEq, Repr

/-- The parser shape of the source: a function of the mutable byte cursor
that yields a result and the final cursor.  Mirrors `fn f(input: &mut &[u8])
-> PResult<T>`: on error the cursor keeps whatever was already consumed. -/
def P (α : Type) : Type := List Nat → Except ErrMode α × List Nat

instance : Monad P where
  pure a := fun s => (Except.ok a, s)
  bind p f := fun s =>
    match p s with
    | (Except.ok a, s1) => f a s1
    | (Except.error e, s1) => (Except.error e, s1)

/-- `return Err(e)` in the source. -/
def pfail {α : Type} (e : ErrMode) : P α := fun s => (Except.error e, s)

theorem run_bind {α β : Type} (p : P α) (f : α → P β) (s : List Nat) :
    (p >>= f) s =
      match p s with
      | (Except.ok a, s1) => f a s1
      | (Except.error e, s1) => (Except.error e, s1) := rfl

theorem run_pure {α : Type} (a : α) (s : List Nat) :
    (pure a : P α) s = (Except.ok a, s) := rfl

theorem run_pfail {α : Type} (e : ErrMode) (s : List Nat) :
    (pfail e : P α) s = (Except.error e, s) := rfl

/-- `u::from_le_bytes`: little-endian value of a byte list. -/
def le_bytes (l : List Nat) : Nat := l.foldr (fun b acc => b + 256 * acc) 0

/-- winnow `take_while(n, pred)` with an exact count `n` on complete input:
succeeds iff the next `n` bytes all satisfy `pred`, consuming exactly them;
otherwise fails with `ErrorKind.Slice` and consumes nothing. -/
def take_exact (n : Nat) (pred : Nat → Bool) : P (List Nat) := fun s =>
  if (s.take n).length = n ∧ (s.take n).all pred then
    (Except.ok (s.take n), s.drop n)
  else
    (Except.error (ErrMode.Backtrack ErrorKind.Slice), s)

/-- `u8::is_ascii`: the byte is `<= 0x7f`. -/
def is_ascii_byte (b : Nat) : Bool := b ≤ 0x7f

/-- `get_ascii_string` (src/parser/utils.rs): takes `len` ASCII bytes.  The
`String::from_utf8` step cannot fail on ASCII bytes and is dropped; the
string is kept as its byte list. -/
def get_ascii_string (len : Nat) : P (List Nat) :=
  take_exact len is_ascii_byte

/-- `get_utf8_null_terminated_string` (src/parser/utils.rs): takes `len`
ASCII bytes and truncates at the first null byte. -/
def get_utf8_null_terminated_string (len : Nat) : P (List Nat) := do
  let bytes ← take_exact len is_ascii_byte
  pure (bytes.takeWhile (fun b => b ≠ 0))

/-- `get_single_u8` (src/parser/utils.rs).  The source's
`if bytes.len() != 1` re-check after a successful exact-count `take_while`
is kept verbatim (it is unreachable). -/
def get_single_u8 : P Nat := do
  let bytes ← take_exact 1 (fun _ => true)
  if bytes.length ≠ 1 then pfail (ErrMode.Backtrack ErrorKind.Verify)
  else pure (le_bytes bytes)

/-- `get_le_u16` (src/parser/utils.rs). -/
def get_le_u16 : P Nat := do
  let bytes ← take_exact 2 (fun _ => true)
  if bytes.length ≠ 2 then pfail (ErrMode.Backtrack ErrorKind.Verify)
  else pure (le_bytes bytes)

/-- `get_le_u32` (src/parser/utils.rs). -/
def get_le_u32 : P Nat := do
  let bytes ← take_exact 4 (fun _ => true)
  if bytes.length ≠ 4 then pfail (ErrMode.Backtrack ErrorKind.Verify)
  else pure (le_bytes bytes)

/-- `get_le_u64` (src/parser/utils.rs). -/
def get_le_u64 : P Nat := do
  let bytes ← take_exact 8 (fun _ => true)
  if bytes.length ≠ 8 then pfail (ErrMode.Backtrack ErrorKind.Verify)
  else pure (le_bytes bytes)

/-- The `for _ in 0..len` loop body of `get_le_u16_vec`: reads `count`
little-endian `u16` values, appending to `acc`; an error part-way leaves the
cursor where the failing iteration left it. -/
def get_le_u16_vec_loop : Nat → List Nat → P (List Nat)
  | 0, acc => pure acc.reverse
  | count + 1, acc => fun s =>
    match take_exact 2 (fun _ => true) s with
    | (Except.ok bytes, s1) =>
      if bytes.length ≠ 2 then (Except.error (ErrMode.Backtrack ErrorKind.Verify), s1)
      else get_le_u16_vec_loop count (le_bytes bytes :: acc) s1
    | (Except.error e, s1) => (Except.error e, s1)

/-- `get_le_u16_vec` (src/parser/utils.rs): rejects an odd `len` up front,
then reads `len` little-endian `u16` values. -/
def get_le_u16_vec (len : Nat) : P (List Nat) := fun s =>
  if len % 2 ≠ 0 then (Except.error (ErrMode.Backtrack ErrorKind.Verify), s)
  else get_le_u16_vec_loop len [] s

/-- `MachineType` (src/parser/utils.rs), in declaration order. -/
inductive MachineType where
  | IMAGE_FILE_MACHINE_UNKNOWN
  | IMAGE_FILE_MACHINE_ALPHA
  | IMAGE_FILE_MACHINE_ALPHA64
  | IMAGE_FILE_MACHINE_AM33
  | IMAGE_FILE_MACHINE_AMD64
  | IMAGE_FILE_MACHINE_ARM
  | IMAGE_FILE_MACHINE_ARM64
  | IMAGE_FILE_MACHINE_ARMNT
  | IMAGE_FILE_MACHINE_AXP64
  | IMAGE_FILE_MACHINE_EBC
  | IMAGE_FILE_MACHINE_I386
  | IMAGE_FILE_MACHINE_IA64
  | IMAGE_FILE_MACHINE_LOONGARCH32
  | IMAGE_FILE_MACHINE_LOONGARCH64
  | IMAGE_FILE_MACHINE_M32R
  | IMAGE_FILE_MACHINE_MIPS16
  | IMAGE_FILE_MACHINE_MIPSFPU
  | IMAGE_FILE_MACHINE_MIPSFPU16
  | IMAGE_FILE_MACHINE_POWERPC
  | IMAGE_FILE_MACHINE_POWERPCFP
  | IMAGE_FILE_MACHINE_R4000
  | IMAGE_FILE_MACHINE_RISCV32
  | IMAGE_FILE_MACHINE_RISCV64
  | IMAGE_FILE_MACHINE_RISCV128
  | IMAGE_FILE_MACHINE_SH3
  | IMAGE_FILE_MACHINE_SH3DSP
  | IMAGE_FILE_MACHINE_SH4
  | IMAGE_FILE_MACHINE_SH5
  | IMAGE_FILE_MACHINE_THUMB
  | IMAGE_FILE_MACHINE_WCEMIPSV2
  deriving DecidableEq, Repr, Inhabited

/-- `MachineType::bitness` (src/parser/utils.rs lines 87-121), the decode
width handed to `Decoder::new`.  Values copied verbatim from the source:
note `UNKNOWN => 64`, `MIPS16 => 16`, `MIPSFPU16 => 16`, `RISCV128 => 64`. -/
def MachineType.bitness : MachineType → Nat
  | .IMAGE_FILE_MACHINE_UNKNOWN => 64
  | .IMAGE_FILE_MACHINE_ALPHA => 32
  | .IMAGE_FILE_MACHINE_ALPHA64 => 64
  | .IMAGE_FILE_MACHINE_AM33 => 32
  | .IMAGE_FILE_MACHINE_AMD64 => 64
  | .IMAGE_FILE_MACHINE_ARM => 32
  | .IMAGE_FILE_MACHINE_ARM64 => 64
  | .IMAGE_FILE_MACHINE_ARMNT => 32
  | .IMAGE_FILE_MACHINE_AXP64 => 64
  | .IMAGE_FILE_MACHINE_EBC => 32
  | .IMAGE_FILE_MACHINE_I386 => 32
  | .IMAGE_FILE_MACHINE_IA64 => 64
  | .IMAGE_FILE_MACHINE_LOONGARCH32 => 32
  | .IMAGE_FILE_MACHINE_LOONGARCH64 => 64
  | .IMAGE_FILE_MACHINE_M32R => 32
  | .IMAGE_FILE_MACHINE_MIPS16 => 16
  | .IMAGE_FILE_MACHINE_MIPSFPU => 32
  | .IMAGE_FILE_MACHINE_MIPSFPU16 => 16
  | .IMAGE_FILE_MACHINE_POWERPC => 32
  | .IMAGE_FILE_MACHINE_POWERPCFP => 32
  | .IMAGE_FILE_MACHINE_R4000 => 32
  | .IMAGE_FILE_MACHINE_RISCV32 => 32
  | .IMAGE_FILE_MACHINE_RISCV64 => 64
  | .IMAGE_FILE_MACHINE_RISCV128 => 64
  | .IMAGE_FILE_MACHINE_SH3 => 32
  | .IMAGE_FILE_MACHINE_SH3DSP => 32
  | .IMAGE_FILE_MACHINE_SH4 => 32
  | .IMAGE_FILE_MACHINE_SH5 => 32
  | .IMAGE_FILE_MACHINE_THUMB => 32
  | .IMAGE_FILE_MACHINE_WCEMIPSV2 => 32

/-- `TryFrom<u16> for MachineType` (src/parser/utils.rs lines 160-199) as an
`Option`.  The source's duplicate arm for `0x284` (`AXP64`, marked
`unreachable_patterns`) is shadowed by `ALPHA64`, as in Rust. -/
def MachineType.try_from (value : Nat) : Option MachineType :=
  if value = 0x0 then some .IMAGE_FILE_MACHINE_UNKNOWN
  else if value = 0x184 then some .IMAGE_FILE_MACHINE_ALPHA
  else if value = 0x284 then some .IMAGE_FILE_MACHINE_ALPHA64
  else if value = 0x1d3 then some .IMAGE_FILE_MACHINE_AM33
  else if value = 0x8664 then some .IMAGE_FILE_MACHINE_AMD64
  else if value = 0x1c0 then some .IMAGE_FILE_MACHINE_ARM
  else if value = 0xaa64 then some .IMAGE_FILE_MACHINE_ARM64
  else if value = 0x1c4 then some .IMAGE_FILE_MACHINE_ARMNT
  else if value = 0xebc then some .IMAGE_FILE_MACHINE_EBC
  else if value = 0x14c then some .IMAGE_FILE_MACHINE_I386
  else if value = 0x200 then some .IMAGE_FILE_MACHINE_IA64
  else if value = 0x6232 then some .IMAGE_FILE_MACHINE_LOONGARCH32
  else if value = 0x6264 then some .IMAGE_FILE_MACHINE_LOONGARCH64
  else if value = 0x9041 then some .IMAGE_FILE_MACHINE_M32R
  else if value = 0x266 then some .IMAGE_FILE_MACHINE_MIPS16
  else if value = 0x366 then some .IMAGE_FILE_MACHINE_MIPSFPU
  else if value = 0x466 then some .IMAGE_FILE_MACHINE_MIPSFPU16
  else if value = 0x1f0 then some .IMAGE_FILE_MACHINE_POWERPC
  else if value = 0x1f1 then some .IMAGE_FILE_MACHINE_POWERPCFP
  else if value = 0x166 then some .IMAGE_FILE_MACHINE_R4000
  else if value = 0x5032 then some .IMAGE_FILE_MACHINE_RISCV32
  else if value = 0x5064 then some .IMAGE_FILE_MACHINE_RISCV64
  else if value = 0x5128 then some .IMAGE_FILE_MACHINE_RISCV128
  else if value = 0x1a2 then some .IMAGE_FILE_MACHINE_SH3
  else if value = 0x1a3 then some .IMAGE_FILE_MACHINE_SH3DSP
  else if value = 0x1a6 then some .IMAGE_FILE_MACHINE_SH4
  else if value = 0x1a8 then some .IMAGE_FILE_MACHINE_SH5
  else if value = 0x1c2 then some .IMAGE_FILE_MACHINE_THUMB
  else if value = 0x169 then some .IMAGE_FILE_MACHINE_WCEMIPSV2
  else none

/-- `Characteristics` (src/parser/utils.rs), COFF file-header flags, in
declaration order (the order `EnumIter` iterates). -/
inductive Characteristics where
  | IMAGE_FILE_RELOCS_STRIPPED
  | IMAGE_FILE_EXECUTABLE_IMAGE
  | IMAGE_FILE_LINE_NUMS_STRIPPED
  | IMAGE_FILE_LOCAL_SYMS_STRIPPED
  | IMAGE_FILE_AGGRESSIVE_WS_TRIM
  | IMAGE_FILE_LARGE_ADDRESS_AWARE
  | IMAGE_FILE_BYTES_REVERSED_LO
  | IMAGE_FILE_32BIT_MACHINE
  | IMAGE_FILE_DEBUG_STRIPPED
  | IMAGE_FILE_REMOVABLE_RUN_FROM_SWAP
  | IMAGE_FILE_NET_RUN_FROM_SWAP
  | IMAGE_FILE_SYSTEM
  | IMAGE_FILE_DLL
  | IMAGE_FILE_UP_SYSTEM_ONLY
  | IMAGE_FILE_BYTES_REVERSED_HI
  deriving DecidableEq, Repr, Inhabited

/-- `Into<u16> for Characteristics` (src/parser/utils.rs lines 241-261):
the bit mask of each flag. -/
def Characteristics.mask : Characteristics → Nat
  | .IMAGE_FILE_RELOCS_STRIPPED => 0x0001
  | .IMAGE_FILE_EXECUTABLE_IMAGE => 0x0002
  | .IMAGE_FILE_LINE_NUMS_STRIPPED => 0x0004
  | .IMAGE_FILE_LOCAL_SYMS_STRIPPED => 0x0008
  | .IMAGE_FILE_AGGRESSIVE_WS_TRIM => 0x0010
  | .IMAGE_FILE_LARGE_ADDRESS_AWARE => 0x0020
  | .IMAGE_FILE_BYTES_REVERSED_LO => 0x0040
  | .IMAGE_FILE_32BIT_MACHINE => 0x0080
  | .IMAGE_FILE_DEBUG_STRIPPED => 0x0100
  | .IMAGE_FILE_REMOVABLE_RUN_FROM_SWAP => 0x0200
  | .IMAGE_FILE_NET_RUN_FROM_SWAP => 0x0400
  | .IMAGE_FILE_SYSTEM => 0x0800
  | .IMAGE_FILE_DLL => 0x1000
  | .IMAGE_FILE_UP_SYSTEM_ONLY => 0x2000
  | .IMAGE_FILE_BYTES_REVERSED_HI => 0x4000

/-- `Characteristics::iter()`: all flags in declaration order. -/
def Characteristics.list : List Characteristics :=
  [.IMAGE_FILE_RELOCS_STRIPPED, .IMAGE_FILE_EXECUTABLE_IMAGE,
   .IMAGE_FILE_LINE_NUMS_STRIPPED, .IMAGE_FILE_LOCAL_SYMS_STRIPPED,
   .IMAGE_FILE_AGGRESSIVE_WS_TRIM, .IMAGE_FILE_LARGE_ADDRESS_AWARE,
   .IMAGE_FILE_BYTES_REVERSED_LO, .IMAGE_FILE_32BIT_MACHINE,
   .IMAGE_FILE_DEBUG_STRIPPED, .IMAGE_FILE_REMOVABLE_RUN_FROM_SWAP,
   .IMAGE_FILE_NET_RUN_FROM_SWAP, .IMAGE_FILE_SYSTEM, .IMAGE_FILE_DLL,
   .IMAGE_FILE_UP_SYSTEM_ONLY, .IMAGE_FILE_BYTES_REVERSED_HI]

/-- `Characteristics::get_characteristics` (src/parser/utils.rs lines
223-238): iterate the flags in declaration order, keep those whose mask bit
is set.  The push-loop over `iter()` is a filter of `list`. -/
def Characteristics.get_characteristics (value : Nat) : List Characteristics :=
  Characteristics.list.filter (fun c => value &&& c.mask != 0)

/-- `OptionalHeaderSubSystem` (src/parser/utils.rs). -/
inductive OptionalHeaderSubSystem where
  | IMAGE_SUBSYSTEM_UNKNOWN
  | IMAGE_SUBSYSTEM_NATIVE
  | IMAGE_SUBSYSTEM_WINDOWS_GUI
  | IMAGE_SUBSYSTEM_WINDOWS_CUI
  | IMAGE_SUBSYSTEM_OS2_CUI
  | IMAGE_SUBSYSTEM_POSIX_CUI
  | IMAGE_SUBSYSTEM_NATIVE_WINDOWS
  | IMAGE_SUBSYSTEM_WINDOWS_CE_GUI
  | IMAGE_SUBSYSTEM_EFI_APPLICATION
  | IMAGE_SUBSYSTEM_EFI_BOOT_SERVICE_DRIVER
  | IMAGE_SUBSYSTEM_EFI_RUNTIME_DRIVER
  | IMAGE_SUBSYSTEM_EFI_ROM
  | IMAGE_SUBSYSTEM_XBOX
  | IMAGE_SUBSYSTEM_WINDOWS_BOOT_APPLICATION
  deriving DecidableEq, Repr, Inhabited

/-- `TryFrom<u16> for OptionalHeaderSubSystem` (src/parser/utils.rs lines
283-304); note 4, 6 and 15 are absent, as in the source. -/
def OptionalHeaderSubSystem.try_from (value : Nat) : Option OptionalHeaderSubSystem :=
  if value = 0 then some .IMAGE_SUBSYSTEM_UNKNOWN
  else if value = 1 then some .IMAGE_SUBSYSTEM_NATIVE
  else if value = 2 then some .IMAGE_SUBSYSTEM_WINDOWS_GUI
  else if value = 3 then some .IMAGE_SUBSYSTEM_WINDOWS_CUI
  else if value = 5 then some .IMAGE_SUBSYSTEM_OS2_CUI
  else if value = 7 then some .IMAGE_SUBSYSTEM_POSIX_CUI
  else if value = 8 then some .IMAGE_SUBSYSTEM_NATIVE_WINDOWS
  else if value = 9 then some .IMAGE_SUBSYSTEM_WINDOWS_CE_GUI
  else if value = 10 then some .IMAGE_SUBSYSTEM_EFI_APPLICATION
  else if value = 11 then some .IMAGE_SUBSYSTEM_EFI_BOOT_SERVICE_DRIVER
  else if value = 12 then some .IMAGE_SUBSYSTEM_EFI_RUNTIME_DRIVER
  else if value = 13 then some .IMAGE_SUBSYSTEM_EFI_ROM
  else if value = 14 then some .IMAGE_SUBSYSTEM_XBOX
  else if value = 16 then some .IMAGE_SUBSYSTEM_WINDOWS_BOOT_APPLICATION
  else none

/-- `DLLCharacteristics` (src/parser/utils.rs), in declaration order. -/
inductive DLLCharacteristics where
  | IMAGE_DLLCHARACTERISTICS_HIGH_ENTROPY_VA
  | IMAGE_DLLCHARACTERISTICS_DYNAMIC_BASE
  | IMAGE_DLLCHARACTERISTICS_FORCE_INTEGRITY
  | IMAGE_DLLCHARACTERISTICS_NX_COMPAT
  | IMAGE_DLLCHARACTERISTICS_NO_ISOLATION
  | IMAGE_DLLCHARACTERISTICS_NO_SEH
  | IMAGE_DLLCHARACTERISTICS_NO_BIND
  | IMAGE_DLLCHARACTERISTICS_APPCONTAINER
  | IMAGE_DLLCHARACTERISTICS_WDM_DRIVER
  | IMAGE_DLLCHARACTERISTICS_GUARD_CF
  | IMAGE_DLLCHARACTERISTICS_TERMINAL_SERVER_AWARE
  deriving DecidableEq, Repr, Inhabited

/-- `Into<u16> for DLLCharacteristics` (src/parser/utils.rs lines 323-339). -/
def DLLCharacteristics.mask : DLLCharacteristics → Nat
  | .IMAGE_DLLCHARACTERISTICS_HIGH_ENTROPY_VA => 0x0020
  | .IMAGE_DLLCHARACTERISTICS_DYNAMIC_BASE => 0x0040
  | .IMAGE_DLLCHARACTERISTICS_FORCE_INTEGRITY => 0x0080
  | .IMAGE_DLLCHARACTERISTICS_NX_COMPAT => 0x0100
  | .IMAGE_DLLCHARACTERISTICS_NO_ISOLATION => 0x0200
  | .IMAGE_DLLCHARACTERISTICS_NO_SEH => 0x0400
  | .IMAGE_DLLCHARACTERISTICS_NO_BIND => 0x0800
  | .IMAGE_DLLCHARACTERISTICS_APPCONTAINER => 0x1000
  | .IMAGE_DLLCHARACTERISTICS_WDM_DRIVER => 0x2000
  | .IMAGE_DLLCHARACTERISTICS_GUARD_CF => 0x4000
  | .IMAGE_DLLCHARACTERISTICS_TERMINAL_SERVER_AWARE => 0x8000

/-- `DLLCharacteristics` iteration order. -/
def DLLCharacteristics.list : List DLLCharacteristics :=
  [.IMAGE_DLLCHARACTERISTICS_HIGH_ENTROPY_VA, .IMAGE_DLLCHARACTERISTICS_DYNAMIC_BASE,
   .IMAGE_DLLCHARACTERISTICS_FORCE_INTEGRITY, .IMAGE_DLLCHARACTERISTICS_NX_COMPAT,
   .IMAGE_DLLCHARACTERISTICS_NO_ISOLATION, .IMAGE_DLLCHARACTERISTICS_NO_SEH,
   .IMAGE_DLLCHARACTERISTICS_NO_BIND, .IMAGE_DLLCHARACTERISTICS_APPCONTAINER,
   .IMAGE_DLLCHARACTERISTICS_WDM_DRIVER, .IMAGE_DLLCHARACTERISTICS_GUARD_CF,
   .IMAGE_DLLCHARACTERISTICS_TERMINAL_SERVER_AWARE]

/-- `DLLCharacteristics::from_u16` (src/parser/utils.rs lines 342-354): same
push-loop over the iterator as the COFF characteristics decoder. -/
def DLLCharacteristics.from_u16 (value : Nat) : List DLLCharacteristics :=
  DLLCharacteristics.list.filter (fun c => value &&& c.mask != 0)

/-- `DataDirectoryTableField` (src/parser/utils.rs), in declaration order. -/
inductive DataDirectoryTableField where
  | EXPORT_TABLE
  | IMPORT_TABLE
  | RESOURCE_TABLE
  | EXCEPTION_TABLE
  | CERTIFICATE_TABLE
  | BASE_RELOCATION_TABLE
  | DEBUG
  | ARCHITECTURE
  | GLOBAL_PTR
  | TLS_TABLE
  | LOAD_CONFIG_TABLE
  | BOUND_IMPORT
  | IAT
  | DELAY_IMPORT_DESCRIPTOR
  | CLR_RUNTIME_HEADER
  | RESERVED
  deriving DecidableEq, Repr, Inhabited

/-- `TryFrom<u32> for DataDirectoryTableField` (src/parser/utils.rs lines
379-402): positional tag of data-directory index 0-15. -/
def DataDirectoryTableField.try_from (value : Nat) : Option DataDirectoryTableField :=
  if value = 0 then some .EXPORT_TABLE
  else if value = 1 then some .IMPORT_TABLE
  else if value = 2 then some .RESOURCE_TABLE
  else if value = 3 then some .EXCEPTION_TABLE
  else if value = 4 then some .CERTIFICATE_TABLE
  else if value = 5 then some .BASE_RELOCATION_TABLE
  else if value = 6 then some .DEBUG
  else if value = 7 then some .ARCHITECTURE
  else if value = 8 then some .GLOBAL_PTR
  else if value = 9 then some .TLS_TABLE
  else if value = 10 then some .LOAD_CONFIG_TABLE
  else if value = 11 then some .BOUND_IMPORT
  else if value = 12 then some .IAT
  else if value = 13 then some .DELAY_IMPORT_DESCRIPTOR
  else if value = 14 then some .CLR_RUNTIME_HEADER
  else if value = 15 then some .RESERVED
  else none

/-- `DOSHeader` (src/parser/mod.rs).  `e_magic` is kept as its bytes; the
reserved arrays `e_res`/`e_res2` as lists of `u16` values. -/
structure DOSHeader where
  e_magic : List Nat
  e_cblp : Nat
  e_cp : Nat
  e_crlc : Nat
  e_cparhdr : Nat
  e_minalloc : Nat
  e_maxalloc : Nat
  e_ss : Nat
  e_sp : Nat
  e_csum : Nat
  e_ip : Nat
  e_cs : Nat
  e_lfarlc : Nat
  e_ovno : Nat
  e_res : List Nat
  e_oemid : Nat
  e_oeminfo : Nat
  e_res2 : List Nat
  e_lfanew : Nat
  deriving DecidableEq, Repr

/-- The byte values of the string `"MZ"`. -/
def mz_bytes : List Nat := [0x4d, 0x5a]

/-- The field-decoding part of `parse_dos_header`
(src/parser/header_parse.rs lines 25-50), running on the separate cursor
over the 64 header bytes: magic check, then the fixed field sequence. -/
def parse_dos_fields : P DOSHeader := do
  let magic ← get_ascii_string 2
  if magic = mz_bytes then do
    let e_cblp ← get_le_u16
    let e_cp ← get_le_u16
    let e_crlc ← get_le_u16
    let e_cparhdr ← get_le_u16
    let e_minalloc ← get_le_u16
    let e_maxalloc ← get_le_u16
    let e_ss ← get_le_u16
    let e_sp ← get_le_u16
    let e_csum ← get_le_u16
    let e_ip ← get_le_u16
    let e_cs ← get_le_u16
    let e_lfarlc ← get_le_u16
    let e_ovno ← get_le_u16
    let e_res ← get_le_u16_vec 4
    let e_oemid ← get_le_u16
    let e_oeminfo ← get_le_u16
    let e_res2 ← get_le_u16_vec 10
    let e_lfanew ← get_le_u32
    pure { e_magic := magic, e_cblp, e_cp, e_crlc, e_cparhdr, e_minalloc,
           e_maxalloc, e_ss, e_sp, e_csum, e_ip, e_cs, e_lfarlc, e_ovno,
           e_res, e_oemid, e_oeminfo, e_res2, e_lfanew }
  else pfail (ErrMode.Backtrack ErrorKind.Verify)

/-- `parse_dos_header` (src/parser/header_parse.rs lines 18-56).
`take_while(0..=64)` always succeeds, consuming at most 64 bytes; a short
header is rejected with `Incomplete`.  The DOS-stub length
`e_lfanew as usize - 64` is the release-mode wrapping subtraction, written
`(e_lfanew + 2^64 - 64) % 2^64` (a debug build would panic when
`e_lfanew < 64`); `take_while(0..=distance)` then consumes at most that many
bytes and never fails, even when fewer remain. -/
def parse_dos_header : P (DOSHeader × List Nat) := fun input =>
  let header_bytes := input.take 64
  let input1 := input.drop 64
  if header_bytes.length ≠ 64 then (Except.error (ErrMode.Incomplete 64), input1)
  else
    match parse_dos_fields header_bytes with
    | (Except.ok dos_header, _) =>
      let distance_to_pe_header := (dos_header.e_lfanew + 2 ^ 64 - 64) % 2 ^ 64
      let dos_stub := input1.take distance_to_pe_header
      (Except.ok (dos_header, dos_stub), input1.drop distance_to_pe_header)
    | (Except.error e, _) => (Except.error e, input1)

/-- `CharacteristicsBlock` (src/parser/mod.rs). -/
structure CharacteristicsBlock where
  characteristics : List Characteristics
  value : Nat
  deriving DecidableEq, Repr

instance : Inhabited CharacteristicsBlock := ⟨{ characteristics := [], value := 0 }⟩

/-- `FileHeader` (src/parser/mod.rs), the COFF file header. -/
structure FileHeader where
  machine : MachineType
  number_of_sections : Nat
  time_date_stamp : Nat
  pointer_to_symbol_table : Nat
  number_of_symbols : Nat
  size_of_optional_header : Nat
  characteristics : CharacteristicsBlock
  deriving DecidableEq, Repr

/-- `CommonOptionalHeaderFields` (src/parser/mod.rs). -/
structure CommonOptionalHeaderFields where
  magic : Nat
  major_linker_version : Nat
  minor_linker_version : Nat
  size_of_code : Nat
  size_of_initialized_data : Nat
  size_of_uninitialized_data : Nat
  address_of_entry_point : Nat
  base_of_code : Nat
  deriving DecidableEq, Repr

/-- `DataDirectory` (src/parser/mod.rs). -/
structure DataDirectory where
  virtual_address : Nat
  size : Nat
  field : DataDirectoryTableField
  deriving DecidableEq, Repr

/-- `ImageOptionalHeader32` (src/parser/mod.rs): the PE32 optional header;
`base_of_data` exists only in this variant, and the width-sensitive fields
are 32-bit. -/
structure ImageOptionalHeader32 where
  common : CommonOptionalHeaderFields
  base_of_data : Nat
  image_base : Nat
  section_alignment : Nat
  file_alignment : Nat
  major_operating_system_version : Nat
  minor_operating_system_version : Nat
  major_image_version : Nat
  minor_image_version : Nat
  major_subsystem_version : Nat
  minor_subsystem_version : Nat
  win32_version_value : Nat
  size_of_image : Nat
  size_of_headers : Nat
  checksum : Nat
  subsystem : OptionalHeaderSubSystem
  dll_characteristics : List DLLCharacteristics
  size_of_stack_reserve : Nat
  size_of_stack_commit : Nat
  size_of_heap_reserve : Nat
  size_of_heap_commit : Nat
  loader_flags : Nat
  number_of_rva_and_sizes : Nat
  data_directories : List DataDirectory
  deriving DecidableEq, Repr

/-- `ImageOptionalHeader64` (src/parser/mod.rs): the PE32+ optional header;
no `base_of_data`, and the width-sensitive fields are 64-bit. -/
structure ImageOptionalHeader64 where
  common : CommonOptionalHeaderFields
  image_base : Nat
  section_alignment : Nat
  file_alignment : Nat
  major_operating_system_version : Nat
  minor_operating_system_version : Nat
  major_image_version : Nat
  minor_image_version : Nat
  major_subsystem_version : Nat
  minor_subsystem_version : Nat
  win32_version_value : Nat
  size_of_image : Nat
  size_of_headers : Nat
  checksum : Nat
  subsystem : OptionalHeaderSubSystem
  dll_characteristics : List DLLCharacteristics
  size_of_stack_reserve : Nat
  size_of_stack_commit : Nat
  size_of_heap_reserve : Nat
  size_of_heap_commit : Nat
  loader_flags : Nat
  number_of_rva_and_sizes : Nat
  data_directories : List DataDirectory
  deriving DecidableEq, Repr

/-- `ImageOptionalHeaderRom` (src/parser/mod.rs). -/
structure ImageOptionalHeaderRom where
  common : CommonOptionalHeaderFields
  deriving DecidableEq, Repr

/-- `OptionalHeader` (src/parser/mod.rs): the three variants dispatched on
the optional-header magic. -/
inductive OptionalHeader where
  | ImageOptionalHeader32 (h : ImageOptionalHeader32)
  | ImageOptionalHeader64 (h : ImageOptionalHeader64)
  | ImageOptionalHeaderRom (h : ImageOptionalHeaderRom)
  deriving DecidableEq, Repr

/-- `NtHeaders` (src/parser/mod.rs). -/
structure NtHeaders where
  signature : List Nat
  file_header : FileHeader
  optional_header : Option OptionalHeader
  deriving DecidableEq, Repr

/-- `PEHeader` (src/parser/mod.rs). -/
structure PEHeader where
  dos_header : DOSHeader
  dos_stub : List Nat
  nt_headers : NtHeaders
  deriving DecidableEq, Repr

/-- The COFF file-header part of `parse_nt_header`
(src/parser/header_parse.rs lines 65-77). -/
def parse_file_header : P FileHeader := do
  let machine_value ← get_le_u16
  match MachineType.try_from machine_value with
  | none => pfail (ErrMode.Backtrack ErrorKind.Verify)
  | some machine => do
    let number_of_sections ← get_le_u16
    let time_date_stamp ← get_le_u32
    let pointer_to_symbol_table ← get_le_u32
    let number_of_symbols ← get_le_u32
    let size_of_optional_header ← get_le_u16
    let characteristics_u16 ← get_le_u16
    pure { machine, number_of_sections, time_date_stamp,
           pointer_to_symbol_table, number_of_symbols,
           size_of_optional_header,
           characteristics := {
             value := characteristics_u16,
             characteristics :=
               Characteristics.get_characteristics characteristics_u16 } }

/-- The common optional-header fields (src/parser/header_parse.rs lines
105-114), read after the magic. -/
def parse_common_fields (magic : Nat) : P CommonOptionalHeaderFields := do
  let major_linker_version ← get_single_u8
  let minor_linker_version ← get_single_u8
  let size_of_code ← get_le_u32
  let size_of_initialized_data ← get_le_u32
  let size_of_uninitialized_data ← get_le_u32
  let address_of_entry_point ← get_le_u32
  let base_of_code ← get_le_u32
  pure { magic, major_linker_version, minor_linker_version, size_of_code,
         size_of_initialized_data, size_of_uninitialized_data,
         address_of_entry_point, base_of_code }

/-- The `for index in 0..number_of_rva_and_sizes` data-directory loop
(src/parser/header_parse.rs lines 148-160, repeated verbatim at 193-205):
`index` is the loop counter, `remaining` the iterations left.  Each
iteration reads the (virtual address, size) pair BEFORE converting the
index to a positional field tag. -/
def parse_data_dirs_from (index : Nat) : Nat → P (List DataDirectory)
  | 0 => pure []
  | remaining + 1 => do
    let virtual_address ← get_le_u32
    let size ← get_le_u32
    match DataDirectoryTableField.try_from index with
    | none => pfail (ErrMode.Backtrack ErrorKind.Verify)
    | some field => do
      let rest ← parse_data_dirs_from (index + 1) remaining
      pure ({ virtual_address, size, field } :: rest)

/-- The whole data-directory loop for `number_of_rva_and_sizes = n`. -/
def parse_data_dirs (n : Nat) : P (List DataDirectory) :=
  parse_data_dirs_from 0 n

/-- The `ImageOptionalHeader32` branch of `parse_nt_header`
(src/parser/header_parse.rs lines 117-162). -/
def parse_optional_32 (common : CommonOptionalHeaderFields) : P ImageOptionalHeader32 := do
  let base_of_data ← get_le_u32
  let image_base ← get_le_u32
  let section_alignment ← get_le_u32
  let file_alignment ← get_le_u32
  let major_operating_system_version ← get_le_u16
  let minor_operating_system_version ← get_le_u16
  let major_image_version ← get_le_u16
  let minor_image_version ← get_le_u16
  let major_subsystem_version ← get_le_u16
  let minor_subsystem_version ← get_le_u16
  let win32_version_value ← get_le_u32
  let size_of_image ← get_le_u32
  let size_of_headers ← get_le_u32
  let checksum ← get_le_u32
  let subsystem_value ← get_le_u16
  match OptionalHeaderSubSystem.try_from subsystem_value with
  | none => pfail (ErrMode.Backtrack ErrorKind.Verify)
  | some subsystem => do
    let dll_value ← get_le_u16
    let size_of_stack_reserve ← get_le_u32
    let size_of_stack_commit ← get_le_u32
    let size_of_heap_reserve ← get_le_u32
    let size_of_heap_commit ← get_le_u32
    let loader_flags ← get_le_u32
    let number_of_rva_and_sizes ← get_le_u32
    let data_directories ← parse_data_dirs number_of_rva_and_sizes
    pure { common, base_of_data, image_base, section_alignment,
           file_alignment, major_operating_system_version,
           minor_operating_system_version, major_image_version,
           minor_image_version, major_subsystem_version,
           minor_subsystem_version, win32_version_value, size_of_image,
           size_of_headers, checksum, subsystem,
           dll_characteristics := DLLCharacteristics.from_u16 dll_value,
           size_of_stack_reserve, size_of_stack_commit, size_of_heap_reserve,
           size_of_heap_commit, loader_flags, number_of_rva_and_sizes,
           data_directories }

/-- The `ImageOptionalHeader64` branch of `parse_nt_header`
(src/parser/header_parse.rs lines 163-207): no `base_of_data`; image base
and the stack/heap sizes are read with `get_le_u64`. -/
def parse_optional_64 (common : CommonOptionalHeaderFields) : P ImageOptionalHeader64 := do
  let image_base ← get_le_u64
  let section_alignment ← get_le_u32
  let file_alignment ← get_le_u32
  let major_operating_system_version ← get_le_u16
  let minor_operating_system_version ← get_le_u16
  let major_image_version ← get_le_u16
  let minor_image_version ← get_le_u16
  let major_subsystem_version ← get_le_u16
  let minor_subsystem_version ← get_le_u16
  let win32_version_value ← get_le_u32
  let size_of_image ← get_le_u32
  let size_of_headers ← get_le_u32
  let checksum ← get_le_u32
  let subsystem_value ← get_le_u16
  match OptionalHeaderSubSystem.try_from subsystem_value with
  | none => pfail (ErrMode.Backtrack ErrorKind.Verify)
  | some subsystem => do
    let dll_value ← get_le_u16
    let size_of_stack_reserve ← get_le_u64
    let size_of_stack_commit ← get_le_u64
    let size_of_heap_reserve ← get_le_u64
    let size_of_heap_commit ← get_le_u64
    let loader_flags ← get_le_u32
    let number_of_rva_and_sizes ← get_le_u32
    let data_directories ← parse_data_dirs number_of_rva_and_sizes
    pure { common, image_base, section_alignment, file_alignment,
           major_operating_system_version, minor_operating_system_version,
           major_image_version, minor_image_version,
           major_subsystem_version, minor_subsystem_version,
           win32_version_value, size_of_image, size_of_headers, checksum,
           subsystem,
           dll_characteristics := DLLCharacteristics.from_u16 dll_value,
           size_of_stack_reserve, size_of_stack_commit, size_of_heap_reserve,
           size_of_heap_commit, loader_flags, number_of_rva_and_sizes,
           data_directories }

/-- The optional-header parsing of `parse_nt_header`
(src/parser/header_parse.rs lines 97-211), running on the separate cursor
over the `size_of_optional_header` bytes: read the magic, dispatch on
`0x10b` / `0x20b` / `0x107`, reject anything else with `Verify`, then read
the common fields and the variant-specific fields. -/
def parse_optional_header : P OptionalHeader := do
  let magic ← get_le_u16
  if magic = 0x10b ∨ magic = 0x20b ∨ magic = 0x107 then do
    let common ← parse_common_fields magic
    if magic = 0x10b then
      OptionalHeader.ImageOptionalHeader32 <$> parse_optional_32 common
    else if magic = 0x20b then
      OptionalHeader.ImageOptionalHeader64 <$> parse_optional_64 common
    else
      pure (OptionalHeader.ImageOptionalHeaderRom { common })
  else pfail (ErrMode.Backtrack ErrorKind.Verify)

/-- `parse_nt_header` (src/parser/header_parse.rs lines 58-216): signature,
COFF file header, then — unless `size_of_optional_header` is zero — exactly
that many bytes are split off (`Incomplete` if short) and the optional
header is parsed from them on its own cursor. -/
def parse_nt_header : P NtHeaders := do
  let signature ← get_ascii_string 4
  let file_header ← parse_file_header
  if file_header.size_of_optional_header = 0 then
    pure { signature, file_header, optional_header := none }
  else fun input =>
    let optional_header_bytes := input.take file_header.size_of_optional_header
    let input1 := input.drop file_header.size_of_optional_header
    if optional_header_bytes.length ≠ file_header.size_of_optional_header then
      (Except.error (ErrMode.Incomplete file_header.size_of_optional_header), input1)
    else
      match parse_optional_header optional_header_bytes with
      | (Except.ok oh, _) =>
        (Except.ok { signature, file_header, optional_header := some oh }, input1)
      | (Except.error e, _) => (Except.error e, input1)

/-- `parse_pe_header` (src/parser/header_parse.rs lines 217-226). -/
def parse_pe_header : P PEHeader := do
  let dh ← parse_dos_header
  let nt_headers ← parse_nt_header
  pure { dos_header := dh.fst, dos_stub := dh.snd, nt_headers }

/-- `SectionEntry` (src/parser/mod.rs); the name is the byte list produced
by `get_utf8_null_terminated_string`. -/
structure SectionEntry where
  name : List Nat
  virtual_size : Nat
  virtual_address : Nat
  size_of_raw_data : Nat
  pointer_to_raw_data : Nat
  pointer_to_relocations : Nat
  pointer_to_linenumbers : Nat
  number_of_relocations : Nat
  number_of_linenumbers : Nat
  characteristics : Nat
  deriving DecidableEq, Repr

/-- `InstructionData` (src/parser/mod.rs / parse_text.rs): one decoded
instruction's in-section offset, encoded length and raw bytes.  The iced
`Instruction` value itself carries no information used by the parser beyond
`ip()` and `len()` and is not modelled. -/
structure InstructionData where
  offset : Nat
  size : Nat
  bytes : List Nat
  deriving DecidableEq, Repr, Inhabited

/-- `SectionData` (src/parser/mod.rs). -/
structure SectionData where
  data : List InstructionData
  name : List Nat
  bytes : List Nat
  deriving DecidableEq, Repr

/-- The byte values of the string `".text"`. -/
def dot_text : List Nat := [0x2e, 0x74, 0x65, 0x78, 0x74]

/-- Modelled from the spec: the iced-x86 `Decoder` used by
`parse_text_section` is external to the repository.  Per the spec (§4.6),
the parser "repeatedly decodes one instruction at a time from the current
position in the slice until no further bytes can form a valid instruction"
and "decoding stops cleanly at the end of the slice".  The model is a
length oracle: `declen bitness amd bytes pos` is the encoded length iced
reports for the instruction decoded at `pos`; it is at least one byte
(iced always consumes at least one byte, emitting an INVALID instruction
for undecodable input) and never runs past the end of the slice. -/
structure DecoderModel where
  declen : Nat → Bool → List Nat → Nat → Nat
  declen_pos : ∀ bitness amd bytes pos, 1 ≤ declen bitness amd bytes pos
  declen_le : ∀ bitness amd bytes pos,
    pos < bytes.length → pos + declen bitness amd bytes pos ≤ bytes.length

/-- The trivial decoder model: every instruction is one byte long. -/
def one_byte_decoder : DecoderModel where
  declen := fun _ _ _ _ => 1
  declen_pos := fun _ _ _ _ => le_refl 1
  declen_le := fun _ _ _ _ h => h

/-- The `while decoder.can_decode()` loop of `parse_text_section`
(src/parser/parse_text.rs lines 42-56).  Loop state mirrors the source:
the decoder position `pos` (`can_decode()` is `pos < length`), the decoder
IP `ip` (`Decoder::new` starts it at 0; `instr.ip()` is its value before
the decode and it advances by the instruction length), and `total_offset`.
`fuel` is only a structural-termination device: since every decode consumes
at least one byte, any `fuel ≥ tb.length - pos` gives the loop's exact
behaviour. -/
def decode_loop (D : DecoderModel) (bitness : Nat) (amd : Bool) (tb : List Nat) :
    Nat → Nat → Nat → Nat → List InstructionData
  | 0, _, _, _ => []
  | fuel + 1, pos, ip, total_offset =>
    if pos < tb.length then
      let instr_len := D.declen bitness amd tb pos
      { offset := ip, size := instr_len,
        bytes := (tb.drop total_offset).take instr_len } ::
        decode_loop D bitness amd tb fuel (pos + instr_len) (ip + instr_len)
          (total_offset + instr_len)
    else []

/-- Outcome of a Rust function that can return, fail, or panic. -/
inductive RunResult (α : Type) where
  | ok (a : α)
  | err (e : ErrMode)
  | panicked
  deriving DecidableEq, Repr

/-- `parse_text_section` (src/parser/parse_text.rs).  Finds the `.text`
entry (`Fail` if absent), checks `pointer_to_raw_data + size > input.len()`
as wrapping 32-bit arithmetic (`Eof`; a debug build would already panic on
an overflowing add), rejects `size == 0` (`Fail`), then takes the INCLUSIVE
slice `input[ptr ..= ptr + size]` — which panics when
`ptr + size ≥ input.len()` (`RunResult.panicked`) and otherwise yields
`size + 1` bytes — and decodes it with bitness `machine.bitness()` and the
AMD decoder option exactly for AMD64. -/
def parse_text_section (D : DecoderModel) (input : List Nat)
    (sections : List SectionEntry) (file_header : FileHeader) :
    RunResult SectionData :=
  match sections.find? (fun x => x.name == dot_text) with
  | none => RunResult.err (ErrMode.Backtrack ErrorKind.Fail)
  | some text_entry =>
    let size := text_entry.size_of_raw_data
    if (text_entry.pointer_to_raw_data + size) % 2 ^ 32 > input.length % 2 ^ 32 then
      RunResult.err (ErrMode.Backtrack ErrorKind.Eof)
    else if size = 0 then
      RunResult.err (ErrMode.Backtrack ErrorKind.Fail)
    else if text_entry.pointer_to_raw_data + size < input.length then
      let text_bytes := (input.drop text_entry.pointer_to_raw_data).take (size + 1)
      let bitness := file_header.machine.bitness
      let amd := file_header.machine == MachineType.IMAGE_FILE_MACHINE_AMD64
      RunResult.ok
        { data := decode_loop D bitness amd text_bytes text_bytes.length 0 0 0,
          name := text_entry.name,
          bytes := text_bytes }
    else RunResult.panicked

example : (parse_dos_header (mz_bytes ++ List.replicate 62 0)).fst =
    Except.ok ({ e_magic := mz_bytes, e_cblp := 0, e_cp := 0, e_crlc := 0,
                 e_cparhdr := 0, e_minalloc := 0, e_maxalloc := 0, e_ss := 0,
                 e_sp := 0, e_csum := 0, e_ip := 0, e_cs := 0, e_lfarlc := 0,
                 e_ovno := 0, e_res := [0, 0, 0, 0], e_oemid := 0,
                 e_oeminfo := 0, e_res2 := List.replicate 10 0,
                 e_lfanew := 0 }, []) := rfl
example : get_le_u16 [7] = (Except.error (ErrMode.Backtrack ErrorKind.Slice), [7]) := rfl
example : get_le_u16_vec 2 [1, 0, 2, 0, 5] = (Except.ok [1, 2], [5]) := rfl
example : get_le_u16_vec 2 [1, 0] = (Except.error (ErrMode.Backtrack ErrorKind.Slice), []) := rfl

/-! ## Generic evaluation lemmas -/

/-- `Bool`-valued error test on an `Except` result. -/
def isErr {α : Type} : Except ErrMode α → Bool
  | Except.error _ => true
  | Except.ok _ => false

theorem take_exact_true (n : Nat) (s : List Nat) :
    take_exact n (fun _ => true) s =
      if n ≤ s.length then (Except.ok (s.take n), s.drop n)
      else (Except.error (ErrMode.Backtrack ErrorKind.Slice), s) := by
  unfold take_exact
  by_cases h : n ≤ s.length
  · simp [h, List.length_take, Nat.min_eq_left h]
  · have h2 : (s.take n).length ≠ n := by
      rw [List.length_take]
      omega
    simp [h, h2]

theorem get_single_u8_eval (s : List Nat) (h : 1 ≤ s.length) :
    get_single_u8 s = (Except.ok (le_bytes (s.take 1)), s.drop 1) := by
  unfold get_single_u8
  rw [run_bind, take_exact_true]
  simp [h, List.length_take, Nat.min_eq_left h, run_pure]

theorem get_le_u16_eval (s : List Nat) (h : 2 ≤ s.length) :
    get_le_u16 s = (Except.ok (le_bytes (s.take 2)), s.drop 2) := by
  unfold get_le_u16
  rw [run_bind, take_exact_true]
  simp [h, List.length_take, Nat.min_eq_left h, run_pure]

theorem get_le_u32_eval (s : List Nat) (h : 4 ≤ s.length) :
    get_le_u32 s = (Except.ok (le_bytes (s.take 4)), s.drop 4) := by
  unfold get_le_u32
  rw [run_bind, take_exact_true]
  simp [h, List.length_take, Nat.min_eq_left h, run_pure]

theorem get_le_u64_eval (s : List Nat) (h : 8 ≤ s.length) :
    get_le_u64 s = (Except.ok (le_bytes (s.take 8)), s.drop 8) := by
  unfold get_le_u64
  rw [run_bind, take_exact_true]
  simp [h, List.length_take, Nat.min_eq_left h, run_pure]

/-! ## C3: decode mode selection -/

/-- The machine types whose address space the PE machine-type table calls
64-bit (the reading of "64-bit machine" in the spec sentence). -/
def is_64bit_machine (m : MachineType) : Bool :=
  m ∈ [MachineType.IMAGE_FILE_MACHINE_ALPHA64, MachineType.IMAGE_FILE_MACHINE_AMD64,
       MachineType.IMAGE_FILE_MACHINE_ARM64, MachineType.IMAGE_FILE_MACHINE_AXP64,
       MachineType.IMAGE_FILE_MACHINE_IA64, MachineType.IMAGE_FILE_MACHINE_LOONGARCH64,
       MachineType.IMAGE_FILE_MACHINE_RISCV64]

/-- The claim as stated: the decode mode is 64-bit exactly for 64-bit
machines and 32-bit for every other machine type (including UNKNOWN and the
MIPS16 family). -/
def claim_C3_prop : Prop :=
  ∀ m : MachineType, MachineType.bitness m = if is_64bit_machine m then 64 else 32

/-- C3 counterexample: the claim is false on the code.  At the concrete
machine type MIPS16 the decode mode `MachineType.bitness` is 16 — neither
64 nor the claimed 32 (and at UNKNOWN it is 64, not 32). -/
theorem C3_counterexample : ¬ claim_C3_prop := by
  intro h
  have h1 := h MachineType.IMAGE_FILE_MACHINE_MIPS16
  have h2 := h MachineType.IMAGE_FILE_MACHINE_UNKNOWN
  revert h1 h2
  decide

/-- C3 amended: the decode mode for disassembling `.text`
(`MachineType.bitness`, handed to `Decoder::new` by `parse_text_section`)
is 64-bit for the seven 64-bit machine types AND for the unknown machine
type and RISCV128; it is 16-bit (not 32-bit) for MIPS16 and MIPSFPU16; all
remaining machine types decode in 32-bit mode. -/
theorem C3_decode_mode_table :
    ∀ m : MachineType,
      MachineType.bitness m =
        if m ∈ [MachineType.IMAGE_FILE_MACHINE_UNKNOWN,
                MachineType.IMAGE_FILE_MACHINE_ALPHA64,
                MachineType.IMAGE_FILE_MACHINE_AMD64,
                MachineType.IMAGE_FILE_MACHINE_ARM64,
                MachineType.IMAGE_FILE_MACHINE_AXP64,
                MachineType.IMAGE_FILE_MACHINE_IA64,
                MachineType.IMAGE_FILE_MACHINE_LOONGARCH64,
                MachineType.IMAGE_FILE_MACHINE_RISCV64,
                MachineType.IMAGE_FILE_MACHINE_RISCV128] then 64
        else if m ∈ [MachineType.IMAGE_FILE_MACHINE_MIPS16,
                     MachineType.IMAGE_FILE_MACHINE_MIPSFPU16] then 16
        else 32 := by
  intro m
  cases m <;> decide

/-! ## C7: bit-flag decoding is the inverse of flag composition -/

/-- Bitwise OR of a list of masks (the "flag composition" of the claim). -/
def or_masks (masks : List Nat) : Nat := masks.foldr (fun m acc => m ||| acc) 0

/-- Bit position of each COFF characteristics mask (masks are the single
bits 0x0001 .. 0x4000). -/
def Characteristics.bit_index : Characteristics → Nat
  | .IMAGE_FILE_RELOCS_STRIPPED => 0
  | .IMAGE_FILE_EXECUTABLE_IMAGE => 1
  | .IMAGE_FILE_LINE_NUMS_STRIPPED => 2
  | .IMAGE_FILE_LOCAL_SYMS_STRIPPED => 3
  | .IMAGE_FILE_AGGRESSIVE_WS_TRIM => 4
  | .IMAGE_FILE_LARGE_ADDRESS_AWARE => 5
  | .IMAGE_FILE_BYTES_REVERSED_LO => 6
  | .IMAGE_FILE_32BIT_MACHINE => 7
  | .IMAGE_FILE_DEBUG_STRIPPED => 8
  | .IMAGE_FILE_REMOVABLE_RUN_FROM_SWAP => 9
  | .IMAGE_FILE_NET_RUN_FROM_SWAP => 10
  | .IMAGE_FILE_SYSTEM => 11
  | .IMAGE_FILE_DLL => 12
  | .IMAGE_FILE_UP_SYSTEM_ONLY => 13
  | .IMAGE_FILE_BYTES_REVERSED_HI => 14

/-- Bit position of each DLL characteristics mask (masks are the single
bits 0x0020 .. 0x8000). -/
def DLLCharacteristics.bit_index : DLLCharacteristics → Nat
  | .IMAGE_DLLCHARACTERISTICS_HIGH_ENTROPY_VA => 5
  | .IMAGE_DLLCHARACTERISTICS_DYNAMIC_BASE => 6
  | .IMAGE_DLLCHARACTERISTICS_FORCE_INTEGRITY => 7
  | .IMAGE_DLLCHARACTERISTICS_NX_COMPAT => 8
  | .IMAGE_DLLCHARACTERISTICS_NO_ISOLATION => 9
  | .IMAGE_DLLCHARACTERISTICS_NO_SEH => 10
  | .IMAGE_DLLCHARACTERISTICS_NO_BIND => 11
  | .IMAGE_DLLCHARACTERISTICS_APPCONTAINER => 12
  | .IMAGE_DLLCHARACTERISTICS_WDM_DRIVER => 13
  | .IMAGE_DLLCHARACTERISTICS_GUARD_CF => 14
  | .IMAGE_DLLCHARACTERISTICS_TERMINAL_SERVER_AWARE => 15

theorem testBit_or_masks (masks : List Nat) (k : Nat) :
    (or_masks masks).testBit k = masks.any (fun m => m.testBit k) := by
  induction masks with
  | nil => simp [or_masks, Nat.zero_testBit]
  | cons m ms ih =>
    simp only [or_masks, List.foldr_cons, List.any_cons]
    rw [Nat.testBit_lor]
    rw [show (List.foldr (fun m acc => m ||| acc) 0 ms) = or_masks ms from rfl, ih]

theorem any_map_general {α β : Type} (g : α → β) (l : List α) (p : β → Bool) :
    (l.map g).any p = l.any (fun a => p (g a)) := by
  induction l with
  | nil => rfl
  | cons x xs ih => simp only [List.map_cons, List.any_cons, ih]

theorem and_two_pow_ne_zero (x k : Nat) : (x &&& 2 ^ k != 0) = x.testBit k := by
  rw [Nat.and_two_pow]
  cases h : x.testBit k <;> simp [h, Nat.pos_iff_ne_zero, Nat.pos_pow_of_pos]

/-- Decoding the OR of the masks of a selected subset recovers exactly the
selected subset, provided each mask is a single distinct bit. -/
theorem decode_or_masks {α : Type} [DecidableEq α] (l : List α) (mask : α → Nat)
    (bit : α → Nat)
    (hmask : ∀ a ∈ l, mask a = 2 ^ bit a)
    (hinj : ∀ a ∈ l, ∀ b ∈ l, bit a = bit b → a = b)
    (f : α → Bool) :
    l.filter (fun c => or_masks ((l.filter f).map mask) &&& mask c != 0) =
      l.filter f := by
  apply List.filter_congr
  intro c hc
  rw [hmask c hc, and_two_pow_ne_zero, testBit_or_masks, any_map_general]
  by_cases hfc : f c = true
  · have hmem : c ∈ l.filter f := List.mem_filter.2 ⟨hc, hfc⟩
    rw [hfc]
    apply List.any_eq_true.2
    refine ⟨c, hmem, ?_⟩
    show (mask c).testBit (bit c) = true
    rw [hmask c hc, Nat.testBit_two_pow_self]
  · have hfc2 : f c = false := by
      cases h : f c
      · rfl
      · exact absurd h hfc
    rw [hfc2]
    apply List.any_eq_false.2
    intro a ha
    have hal : a ∈ l := (List.mem_filter.1 ha).1
    have haf : f a = true := (List.mem_filter.1 ha).2
    rw [Bool.not_eq_true]
    show (mask a).testBit (bit c) = false
    rw [hmask a hal]
    by_cases hb : bit a = bit c
    · have : a = c := hinj a hal c hc hb
      subst this
      exact absurd haf hfc
    · simp [Nat.testBit_two_pow_of_ne hb]

/-- C7: bit-flag decoding is total (both decoders are plain functions of the
16-bit value) and is the inverse of flag composition: for any selection `f`
of COFF characteristics and any selection `g` of DLL characteristics,
decoding the bitwise OR of the selected masks returns exactly the selected
flags, in canonical declaration order (the order of `Characteristics.list`
resp. `DLLCharacteristics.list`). -/
theorem C7_flag_decode_inverse :
    ∀ (f : Characteristics → Bool) (g : DLLCharacteristics → Bool),
      Characteristics.get_characteristics
          (or_masks ((Characteristics.list.filter f).map Characteristics.mask)) =
        Characteristics.list.filter f ∧
      DLLCharacteristics.from_u16
          (or_masks ((DLLCharacteristics.list.filter g).map DLLCharacteristics.mask)) =
        DLLCharacteristics.list.filter g := by
  intro f g
  constructor
  · exact decode_or_masks Characteristics.list Characteristics.mask
      Characteristics.bit_index (by decide) (by decide) f
  · exact decode_or_masks DLLCharacteristics.list DLLCharacteristics.mask
      DLLCharacteristics.bit_index (by decide) (by decide) g

/-! ## C10: cursor behaviour of the primitive readers on failure -/

theorem take_exact_err_snd {n : Nat} {p : Nat → Bool} {s s1 : List Nat} {e : ErrMode}
    (h : take_exact n p s = (Except.error e, s1)) : s1 = s := by
  unfold take_exact at h
  by_cases hc : (s.take n).length = n ∧ (s.take n).all p
  · rw [if_pos hc] at h
    exact absurd (congrArg Prod.fst h) (by simp)
  · rw [if_neg hc] at h
    exact (congrArg Prod.snd h).symm

theorem take_exact_ok_len {n : Nat} {p : Nat → Bool} {s s1 bytes : List Nat}
    (h : take_exact n p s = (Except.ok bytes, s1)) : bytes.length = n := by
  unfold take_exact at h
  by_cases hc : (s.take n).length = n ∧ (s.take n).all p
  · rw [if_pos hc] at h
    have hb := congrArg Prod.fst h
    simp at hb
    rw [← hb]
    exact hc.1
  · rw [if_neg hc] at h
    exact absurd (congrArg Prod.fst h) (by simp)

/-- A reader of the shape `take_exact n p >>= k` whose continuation cannot
fail on byte lists of length `n` leaves the cursor untouched on failure. -/
theorem take_bind_no_advance {β : Type} (n : Nat) (pr : Nat → Bool) (k : List Nat → P β)
    (hk : ∀ bytes s, bytes.length = n → isErr ((k bytes) s).fst = false)
    (s : List Nat) (h : isErr ((take_exact n pr >>= k) s).fst = true) :
    ((take_exact n pr >>= k) s).snd = s := by
  rw [run_bind] at h ⊢
  rcases he : take_exact n pr s with ⟨r, s1⟩
  cases r with
  | ok bytes =>
    rw [he] at h
    simp only at h
    rw [hk bytes s1 (take_exact_ok_len he)] at h
    exact absurd h (by simp)
  | error e => exact take_exact_err_snd he

theorem get_ascii_string_no_advance (len : Nat) (s : List Nat)
    (h : isErr (get_ascii_string len s).fst = true) :
    (get_ascii_string len s).snd = s := by
  unfold get_ascii_string at h ⊢
  rcases he : take_exact len is_ascii_byte s with ⟨r, s1⟩
  cases r with
  | ok bytes =>
    rw [he] at h
    simp [isErr] at h
  | error e => exact take_exact_err_snd he

theorem get_utf8_no_advance (len : Nat) (s : List Nat)
    (h : isErr (get_utf8_null_terminated_string len s).fst = true) :
    (get_utf8_null_terminated_string len s).snd = s := by
  unfold get_utf8_null_terminated_string at h ⊢
  refine take_bind_no_advance len is_ascii_byte _ ?_ s h
  intro bytes s1 _
  simp [run_pure, isErr]

theorem get_single_u8_no_advance (s : List Nat)
    (h : isErr (get_single_u8 s).fst = true) : (get_single_u8 s).snd = s := by
  unfold get_single_u8 at h ⊢
  refine take_bind_no_advance 1 _ _ ?_ s h
  intro bytes s1 hb
  simp [hb, run_pure, isErr]

theorem get_le_u16_no_advance (s : List Nat)
    (h : isErr (get_le_u16 s).fst = true) : (get_le_u16 s).snd = s := by
  unfold get_le_u16 at h ⊢
  refine take_bind_no_advance 2 _ _ ?_ s h
  intro bytes s1 hb
  simp [hb, run_pure, isErr]

theorem get_le_u32_no_advance (s : List Nat)
    (h : isErr (get_le_u32 s).fst = true) : (get_le_u32 s).snd = s := by
  unfold get_le_u32 at h ⊢
  refine take_bind_no_advance 4 _ _ ?_ s h
  intro bytes s1 hb
  simp [hb, run_pure, isErr]

theorem get_le_u64_no_advance (s : List Nat)
    (h : isErr (get_le_u64 s).fst = true) : (get_le_u64 s).snd = s := by
  unfold get_le_u64 at h ⊢
  refine take_bind_no_advance 8 _ _ ?_ s h
  intro bytes s1 hb
  simp [hb, run_pure, isErr]

theorem vec_loop_step_ok (count : Nat) (acc s : List Nat) (h : 2 ≤ s.length) :
    get_le_u16_vec_loop (count + 1) acc s =
      get_le_u16_vec_loop count (le_bytes (s.take 2) :: acc) (s.drop 2) := by
  have hlen : (s.take 2).length = 2 := by rw [List.length_take]; omega
  conv_lhs => unfold get_le_u16_vec_loop
  rw [take_exact_true, if_pos h]
  simp [hlen]

theorem vec_loop_step_err (count : Nat) (acc s : List Nat) (h : ¬ 2 ≤ s.length) :
    get_le_u16_vec_loop (count + 1) acc s =
      (Except.error (ErrMode.Backtrack ErrorKind.Slice), s) := by
  conv_lhs => unfold get_le_u16_vec_loop
  rw [take_exact_true, if_neg h]

/-- On failure, the `u16`-vector loop has consumed two bytes per completed
iteration: the final cursor is the input minus `2 * (length / 2)` bytes,
and failure happens exactly when fewer than `2 * count` bytes remain. -/
theorem vec_loop_fail (count : Nat) : ∀ acc s : List Nat,
    isErr (get_le_u16_vec_loop count acc s).fst = true →
    (get_le_u16_vec_loop count acc s).snd = s.drop (2 * (s.length / 2)) ∧
      s.length < 2 * count := by
  induction count with
  | zero =>
    intro acc s h
    simp [get_le_u16_vec_loop, run_pure, isErr] at h
  | succ n ih =>
    intro acc s h
    by_cases hl : 2 ≤ s.length
    · rw [vec_loop_step_ok n acc s hl] at h ⊢
      obtain ⟨h1, h2⟩ := ih _ _ h
      constructor
      · rw [h1, List.drop_drop]
        congr 1
        rw [List.length_drop]
        rw [List.length_drop] at h2
        omega
      · rw [List.length_drop] at h2
        omega
    · rw [vec_loop_step_err n acc s hl] at h ⊢
      refine ⟨?_, by omega⟩
      have hz : s.length / 2 = 0 := by omega
      rw [hz]
      simp

/-- The claim as stated: NO primitive read operation (fixed-width integers,
N-byte ASCII string, null-terminated UTF-8 string, vector of N 16-bit
values) moves the cursor when it fails; in particular the vector reader
consumes nothing when fewer than 2N bytes remain. -/
def claim_C10_prop : Prop :=
  (∀ len s, isErr (get_ascii_string len s).fst = true → (get_ascii_string len s).snd = s) ∧
  (∀ len s, isErr (get_utf8_null_terminated_string len s).fst = true →
     (get_utf8_null_terminated_string len s).snd = s) ∧
  (∀ s, isErr (get_single_u8 s).fst = true → (get_single_u8 s).snd = s) ∧
  (∀ s, isErr (get_le_u16 s).fst = true → (get_le_u16 s).snd = s) ∧
  (∀ s, isErr (get_le_u32 s).fst = true → (get_le_u32 s).snd = s) ∧
  (∀ s, isErr (get_le_u64 s).fst = true → (get_le_u64 s).snd = s) ∧
  (∀ len s, isErr (get_le_u16_vec len s).fst = true → (get_le_u16_vec len s).snd = s)

/-- C10 counterexample: the claim is false for `get_le_u16_vec`.  Reading a
vector of 2 u16 values from the 2-byte buffer `[0, 0]` fails (4 bytes would
be needed) but leaves the cursor advanced past the 2 bytes consumed by the
first completed iteration: the final cursor is `[]`, not `[0, 0]`. -/
theorem C10_counterexample : ¬ claim_C10_prop := by
  intro h
  have h1 := h.2.2.2.2.2.2 2 [0, 0] (by decide)
  have h2 : (get_le_u16_vec 2 [0, 0]).snd = [] := rfl
  rw [h2] at h1
  exact absurd h1 (by decide)

/-- C10 amended: every SINGLE-value primitive reader (fixed-width
little-endian integers, N-byte ASCII string, null-terminated UTF-8 string)
leaves the cursor exactly where it was when it fails.  The vector reader
`get_le_u16_vec` does not: on failure it has consumed two bytes per
completed iteration — the cursor ends at `s.drop (2 * (s.length / 2))`
(everything but a possible trailing odd byte) when the element count is
even, and failure with an even count happens exactly when fewer than
`2 * len` bytes remain; only for an odd count (rejected up front) is the
cursor untouched. -/
theorem C10_cursor_on_failure :
    (∀ len s, isErr (get_ascii_string len s).fst = true → (get_ascii_string len s).snd = s) ∧
    (∀ len s, isErr (get_utf8_null_terminated_string len s).fst = true →
       (get_utf8_null_terminated_string len s).snd = s) ∧
    (∀ s, isErr (get_single_u8 s).fst = true → (get_single_u8 s).snd = s) ∧
    (∀ s, isErr (get_le_u16 s).fst = true → (get_le_u16 s).snd = s) ∧
    (∀ s, isErr (get_le_u32 s).fst = true → (get_le_u32 s).snd = s) ∧
    (∀ s, isErr (get_le_u64 s).fst = true → (get_le_u64 s).snd = s) ∧
    (∀ len s, isErr (get_le_u16_vec len s).fst = true →
       (len % 2 ≠ 0 → (get_le_u16_vec len s).snd = s) ∧
       (len % 2 = 0 → (get_le_u16_vec len s).snd = s.drop (2 * (s.length / 2)) ∧
          s.length < 2 * len)) := by
  refine ⟨get_ascii_string_no_advance, get_utf8_no_advance, get_single_u8_no_advance,
    get_le_u16_no_advance, get_le_u32_no_advance, get_le_u64_no_advance, ?_⟩
  intro len s h
  constructor
  · intro hodd
    unfold get_le_u16_vec at h ⊢
    rw [if_pos hodd] at h ⊢
  · intro heven
    unfold get_le_u16_vec at h ⊢
    rw [if_neg (by omega)] at h ⊢
    exact vec_loop_fail len [] s h

/-- C10 witness: concrete failing reads, obtained from
`C10_cursor_on_failure` itself. -/
theorem C10_cursor_on_failure_witness :
    (get_le_u32 [1, 2, 3]).snd = [1, 2, 3] ∧
    (get_le_u16_vec 4 [9, 9, 9, 9, 9]).snd = [9] := by
  constructor
  · exact C10_cursor_on_failure.2.2.2.2.1 [1, 2, 3] rfl
  · exact ((C10_cursor_on_failure.2.2.2.2.2.2 4 [9, 9, 9, 9, 9] rfl).2 (by decide)).1

/-! ## C5: non-"MZ" buffers -/

/-- The claim as stated: EVERY buffer whose first two bytes are not
`0x4D 0x5A` fails with Format Violation (the `ErrorKind.Verify` raised by
the magic check of `parse_dos_header`). -/
def claim_C5_prop : Prop :=
  ∀ input : List Nat, input.take 2 ≠ mz_bytes →
    (parse_pe_header input).fst = Except.error (ErrMode.Backtrack ErrorKind.Verify)

/-- C5 counterexample: the 2-byte buffer `"AB"` does not start with `"MZ"`,
yet parsing fails with `Incomplete` (the 64-byte DOS-header read comes
first), not with the Format Violation error. -/
theorem C5_counterexample : ¬ claim_C5_prop := by
  intro h
  have h1 := h [0x41, 0x42] (by decide)
  have h2 : (parse_pe_header [0x41, 0x42]).fst = Except.error (ErrMode.Incomplete 64) := rfl
  rw [h2] at h1
  exact absurd (Except.error.inj h1) (by decide)

theorem parse_dos_header_bad_magic (input : List Nat) (hlen : 64 ≤ input.length)
    (hascii : (input.take 2).all is_ascii_byte = true)
    (hmz : input.take 2 ≠ mz_bytes) :
    parse_dos_header input =
      (Except.error (ErrMode.Backtrack ErrorKind.Verify), input.drop 64) := by
  unfold parse_dos_header
  have h64 : (input.take 64).length = 64 := by rw [List.length_take]; omega
  rw [if_neg (by omega)]
  have htt : (input.take 64).take 2 = input.take 2 := by
    rw [List.take_take]
    norm_num
  have hfields : parse_dos_fields (input.take 64) =
      (Except.error (ErrMode.Backtrack ErrorKind.Verify), (input.take 64).drop 2) := by
    unfold parse_dos_fields
    rw [run_bind]
    have htake : take_exact 2 is_ascii_byte (input.take 64) =
        (Except.ok (input.take 2), (input.take 64).drop 2) := by
      unfold take_exact
      rw [htt]
      have hl2 : (input.take 2).length = 2 := by rw [List.length_take]; omega
      rw [if_pos ⟨hl2, hascii⟩]
    rw [show get_ascii_string 2 = take_exact 2 is_ascii_byte from rfl, htake]
    simp only
    rw [if_neg hmz]
    rfl
  rw [hfields]

/-- C5 amended: a buffer of at least 64 bytes whose first two bytes are
ASCII but different from `"MZ"` fails with the Format Violation error
(`ErrorKind.Verify`); a buffer shorter than 64 bytes fails with
`Incomplete` before the magic is ever examined (and a non-ASCII byte among
the first two fails the ASCII read instead). -/
theorem C5_format_violation (input : List Nat) (hlen : 64 ≤ input.length)
    (hascii : (input.take 2).all is_ascii_byte = true)
    (hmz : input.take 2 ≠ mz_bytes) :
    (parse_pe_header input).fst = Except.error (ErrMode.Backtrack ErrorKind.Verify) := by
  unfold parse_pe_header
  rw [run_bind, parse_dos_header_bad_magic input hlen hascii hmz]

/-- C5 witness: a concrete 64-byte buffer starting `"AB"`. -/
theorem C5_format_violation_witness :
    (parse_pe_header (0x41 :: 0x42 :: List.replicate 62 0)).fst =
      Except.error (ErrMode.Backtrack ErrorKind.Verify) :=
  C5_format_violation (0x41 :: 0x42 :: List.replicate 62 0)
    (by simp) (by decide) (by decide)

/-! ## C2: the DOS-stub length subtraction is unguarded -/

/-- C2: behaviour of the code at the claim's failing inputs, contradicting
the claim.  First conjunct: on a 67-byte buffer starting `"MZ"` with
`e_lfanew = 0 < 64`, the claim demands an `Incomplete` failure, but the
unguarded `e_lfanew as usize - 64` wraps (release semantics; a debug build
panics on the same input) to 2^64 - 64, and the parse SUCCEEDS, consuming
the rest of the buffer as the stub.  Second conjunct: with `e_lfanew = 100`
and no bytes after the 64-byte header, the stub length 36 exceeds the 0
remaining bytes; the claim demands `Incomplete`, but the parse succeeds
with an empty stub (so the stub length is NOT `e_lfanew - 64`). -/
theorem C2_code_behavior :
    (∃ dh : DOSHeader,
       parse_dos_header (mz_bytes ++ List.replicate 62 0 ++ [7, 7, 7]) =
         (Except.ok (dh, [7, 7, 7]), []) ∧ dh.e_lfanew = 0) ∧
    (∃ dh : DOSHeader,
       parse_dos_header (mz_bytes ++ List.replicate 58 0 ++ [100, 0, 0, 0]) =
         (Except.ok (dh, []), []) ∧ dh.e_lfanew = 100) :=
  ⟨⟨_, rfl, rfl⟩, ⟨_, rfl, rfl⟩⟩

/-! ## C1 / C4 / C9: the `.text` slice and the decode loop -/

/-- A `.text` section entry with the given raw pointer and size. -/
def text_entry_at (ptr size : Nat) : SectionEntry :=
  { name := dot_text, virtual_size := 0, virtual_address := 0,
    size_of_raw_data := size, pointer_to_raw_data := ptr,
    pointer_to_relocations := 0, pointer_to_linenumbers := 0,
    number_of_relocations := 0, number_of_linenumbers := 0,
    characteristics := 0 }

/-- A COFF file header for the given machine with no optional header. -/
def file_header_for (m : MachineType) : FileHeader :=
  { machine := m, number_of_sections := 1, time_date_stamp := 0,
    pointer_to_symbol_table := 0, number_of_symbols := 0,
    size_of_optional_header := 0,
    characteristics := { characteristics := [], value := 0 } }

/-- C1: behaviour of the code at the claim's inputs, contradicting the
claim.  First conjunct: on the 6-byte buffer `[1,2,3,4,5,6]` with a `.text`
entry of `pointer_to_raw_data = 1`, `size_of_raw_data = 2` (so
`ptr + size = 3 ≤ 6`), the inclusive slice `input[1 ..= 3]` returns the
THREE bytes `[2,3,4]`, not the 2 bytes `[2,3]` of the exclusive range the
claim specifies.  Second conjunct: when `ptr + size` equals the buffer
length exactly (ptr = 1, size = 5), the claim still demands the 5-byte
slice, but the inclusive upper bound walks one past the end and the code
panics. -/
theorem C1_code_behavior :
    (∃ sd : SectionData,
       parse_text_section one_byte_decoder [1, 2, 3, 4, 5, 6]
           [text_entry_at 1 2] (file_header_for MachineType.IMAGE_FILE_MACHINE_AMD64) =
         RunResult.ok sd ∧ sd.bytes = [2, 3, 4] ∧ sd.bytes.length = 3) ∧
    parse_text_section one_byte_decoder [1, 2, 3, 4, 5, 6]
        [text_entry_at 1 5] (file_header_for MachineType.IMAGE_FILE_MACHINE_AMD64) =
      RunResult.panicked :=
  ⟨⟨_, rfl, rfl, rfl⟩, rfl⟩

/-- C4: behaviour of the code at the claim's failing inputs, contradicting
the claim.  First conjunct: with `pointer_to_raw_data = 2^32 - 1` and
`size_of_raw_data = 2`, the sum exceeds the 32-bit range, the wrapping
32-bit comparison `(ptr + size) % 2^32 = 1 > 100` lets the bounds check
pass (a debug build panics already at the add), and the subsequent slice
indexes far past the 100-byte buffer: the code PANICS instead of returning
the Section Out Of Bounds error.  Second conjunct: a `.text` entry with
`size_of_raw_data = 0` and `pointer_to_raw_data = 101 > 100` fails with the
Section Out Of Bounds error (`Eof`), not the Empty Section error (`Fail`)
the claim requires for every zero-size entry, because the bounds check runs
first. -/
theorem C4_code_behavior :
    parse_text_section one_byte_decoder (List.replicate 100 0)
        [text_entry_at (2 ^ 32 - 1) 2] (file_header_for MachineType.IMAGE_FILE_MACHINE_AMD64) =
      RunResult.panicked ∧
    parse_text_section one_byte_decoder (List.replicate 100 0)
        [text_entry_at 101 0] (file_header_for MachineType.IMAGE_FILE_MACHINE_AMD64) =
      RunResult.err (ErrMode.Backtrack ErrorKind.Eof) :=
  ⟨rfl, rfl⟩

/-- The instruction records starting at base offset `p` are contiguous:
each record's offset is the running total of the sizes before it. -/
def chain_ok : Nat → List InstructionData → Prop
  | _, [] => True
  | p, x :: xs => x.offset = p ∧ chain_ok (p + x.size) xs

theorem chain_ok_head {p : Nat} {l : List InstructionData} (h : chain_ok p l) :
    ∀ x, l.head? = some x → x.offset = p := by
  cases l with
  | nil => intro x hx; cases hx
  | cons y ys =>
    intro x hx
    cases hx
    exact h.1

theorem chain_ok_get {l : List InstructionData} :
    ∀ {p : Nat}, chain_ok p l →
    ∀ i (hi : i + 1 < l.length),
      (l.get ⟨i, Nat.lt_of_succ_lt hi⟩).offset + (l.get ⟨i, Nat.lt_of_succ_lt hi⟩).size =
        (l.get ⟨i + 1, hi⟩).offset := by
  induction l with
  | nil => intro p _ i hi; simp at hi
  | cons x xs ih =>
    intro p h i hi
    cases i with
    | zero =>
      cases xs with
      | nil => simp at hi
      | cons y ys =>
        have hy : y.offset = p + x.size := h.2.1
        simp only [List.get]
        rw [h.1, hy]
    | succ j =>
      have hj : j + 1 < xs.length := by
        simp only [List.length_cons] at hi
        omega
      have := ih h.2 j hj
      simp only [List.get]
      exact this

/-- Main invariant of the decode loop, along the diagonal where position,
IP and total offset agree (as they do from the initial call on): the
records chain contiguously from the start position, every record is at
least one byte, and the sizes sum to at most the remaining bytes. -/
theorem decode_loop_invariant (D : DecoderModel) (bitness : Nat) (amd : Bool)
    (tb : List Nat) :
    ∀ fuel pos, tb.length - pos ≤ fuel →
      chain_ok pos (decode_loop D bitness amd tb fuel pos pos pos) ∧
      (∀ x ∈ decode_loop D bitness amd tb fuel pos pos pos, 1 ≤ x.size) ∧
      (pos ≤ tb.length →
        pos + ((decode_loop D bitness amd tb fuel pos pos pos).map
          (fun x => x.size)).sum ≤ tb.length) := by
  intro fuel
  induction fuel with
  | zero =>
    intro pos hfuel
    have h0 : decode_loop D bitness amd tb 0 pos pos pos = [] := rfl
    rw [h0]
    refine ⟨trivial, ?_, ?_⟩
    · intro x hx
      cases hx
    · intro hpos
      simpa using hpos
  | succ n ih =>
    intro pos hfuel
    by_cases hlt : pos < tb.length
    · have hone : 1 ≤ D.declen bitness amd tb pos := D.declen_pos bitness amd tb pos
      have hle : pos + D.declen bitness amd tb pos ≤ tb.length :=
        D.declen_le bitness amd tb pos hlt
      have hstep : decode_loop D bitness amd tb (n + 1) pos pos pos =
          { offset := pos, size := D.declen bitness amd tb pos,
            bytes := (tb.drop pos).take (D.declen bitness amd tb pos) } ::
            decode_loop D bitness amd tb n (pos + D.declen bitness amd tb pos)
              (pos + D.declen bitness amd tb pos) (pos + D.declen bitness amd tb pos) := by
        conv_lhs => unfold decode_loop
        rw [if_pos hlt]
      have hrec := ih (pos + D.declen bitness amd tb pos) (by omega)
      rw [hstep]
      refine ⟨⟨rfl, hrec.1⟩, ?_, ?_⟩
      · intro x hx
        cases hx with
        | head => exact hone
        | tail _ hx2 => exact hrec.2.1 x hx2
      · intro _
        simp only [List.map_cons, List.sum_cons]
        have := hrec.2.2 hle
        omega
    · have hstep : decode_loop D bitness amd tb (n + 1) pos pos pos = [] := by
        conv_lhs => unfold decode_loop
        rw [if_neg hlt]
      rw [hstep]
      refine ⟨trivial, ?_, ?_⟩
      · intro x hx
        cases hx
      · intro hpos
        simpa using hpos

/-- C9: in every `SectionData` returned by `parse_text_section`, the
recorded instruction offsets start at 0, are contiguous — each offset plus
that instruction's size is the next offset — and strictly increase, and
the instruction sizes sum to at most the length of the decoded byte
range. -/
theorem decode_loop_props (D : DecoderModel) (bitness : Nat) (amd : Bool)
    (tb : List Nat) :
    (∀ x, (decode_loop D bitness amd tb tb.length 0 0 0).head? = some x → x.offset = 0) ∧
    (∀ i (hi : i + 1 < (decode_loop D bitness amd tb tb.length 0 0 0).length),
      ((decode_loop D bitness amd tb tb.length 0 0 0).get ⟨i, Nat.lt_of_succ_lt hi⟩).offset +
          ((decode_loop D bitness amd tb tb.length 0 0 0).get ⟨i, Nat.lt_of_succ_lt hi⟩).size =
        ((decode_loop D bitness amd tb tb.length 0 0 0).get ⟨i + 1, hi⟩).offset ∧
      ((decode_loop D bitness amd tb tb.length 0 0 0).get ⟨i, Nat.lt_of_succ_lt hi⟩).offset <
        ((decode_loop D bitness amd tb tb.length 0 0 0).get ⟨i + 1, hi⟩).offset) ∧
    (((decode_loop D bitness amd tb tb.length 0 0 0).map (fun x => x.size)).sum ≤ tb.length) := by
  obtain ⟨hchain, hsize, hsum⟩ :=
    decode_loop_invariant D bitness amd tb tb.length 0 (by omega)
  refine ⟨fun x hx => chain_ok_head hchain x hx, ?_, ?_⟩
  · intro i hi
    have hc := chain_ok_get hchain i hi
    refine ⟨hc, ?_⟩
    have hs := hsize
      ((decode_loop D bitness amd tb tb.length 0 0 0).get ⟨i, Nat.lt_of_succ_lt hi⟩)
      (List.get_mem _ _ _)
    omega
  · simpa using hsum (by omega)

/-- C9: in every `SectionData` returned by `parse_text_section`, the
recorded instruction offsets start at 0, are contiguous — each offset plus
that instruction's size is the next offset — and strictly increase, and
the instruction sizes sum to at most the length of the decoded byte
range. -/
theorem C9_instruction_offsets (D : DecoderModel) (input : List Nat)
    (sections : List SectionEntry) (fh : FileHeader) (sd : SectionData)
    (h : parse_text_section D input sections fh = RunResult.ok sd) :
    (∀ x, sd.data.head? = some x → x.offset = 0) ∧
    (∀ i (hi : i + 1 < sd.data.length),
      (sd.data.get ⟨i, Nat.lt_of_succ_lt hi⟩).offset +
          (sd.data.get ⟨i, Nat.lt_of_succ_lt hi⟩).size =
        (sd.data.get ⟨i + 1, hi⟩).offset ∧
      (sd.data.get ⟨i, Nat.lt_of_succ_lt hi⟩).offset <
        (sd.data.get ⟨i + 1, hi⟩).offset) ∧
    ((sd.data.map (fun x => x.size)).sum ≤ sd.bytes.length) := by
  unfold parse_text_section at h
  cases hfind : sections.find? (fun x => x.name == dot_text) with
  | none =>
    rw [hfind] at h
    cases h
  | some entry =>
    rw [hfind] at h
    simp only at h
    split_ifs at h with h1 h2 h3
    have hsd : sd =
        { data := decode_loop D fh.machine.bitness
            (fh.machine == MachineType.IMAGE_FILE_MACHINE_AMD64)
            ((input.drop entry.pointer_to_raw_data).take (entry.size_of_raw_data + 1))
            ((input.drop entry.pointer_to_raw_data).take (entry.size_of_raw_data + 1)).length
            0 0 0,
          name := entry.name,
          bytes := (input.drop entry.pointer_to_raw_data).take (entry.size_of_raw_data + 1) } :=
      (RunResult.ok.inj h).symm
    subst hsd
    exact decode_loop_props D fh.machine.bitness
      (fh.machine == MachineType.IMAGE_FILE_MACHINE_AMD64)
      ((input.drop entry.pointer_to_raw_data).take (entry.size_of_raw_data + 1))

/-- C9 witness: the guarantees instantiated on a concrete successful
disassembly. -/
theorem C9_instruction_offsets_witness :
    ∃ sd, parse_text_section one_byte_decoder [1, 2, 3, 4, 5, 6] [text_entry_at 1 2]
        (file_header_for MachineType.IMAGE_FILE_MACHINE_AMD64) = RunResult.ok sd ∧
      ((sd.data.map (fun x => x.size)).sum ≤ sd.bytes.length) := by
  refine ⟨_, rfl, ?_⟩
  exact (C9_instruction_offsets one_byte_decoder [1, 2, 3, 4, 5, 6] [text_entry_at 1 2]
    (file_header_for MachineType.IMAGE_FILE_MACHINE_AMD64) _ rfl).2.2

/-! ## C8: the data-directory loop -/

theorem run_bind_ok {α β : Type} {p : P α} {f : α → P β} {s s1 : List Nat} {a : α}
    (h : p s = (Except.ok a, s1)) : (p >>= f) s = f a s1 := by
  rw [run_bind, h]

theorem run_bind_err {α β : Type} {p : P α} {f : α → P β} {s s1 : List Nat} {e : ErrMode}
    (h : p s = (Except.error e, s1)) : (p >>= f) s = (Except.error e, s1) := by
  rw [run_bind, h]

theorem pair_err_ok_absurd {α γ : Type} {e : ErrMode} {a : α} {s1 s2 : γ}
    (h : ((Except.error e : Except ErrMode α), s1) = (Except.ok a, s2)) : False := by
  have := congrArg Prod.fst h
  simp at this

theorem pair_ok_inj {α γ : Type} {a b : α} {s1 s2 : γ}
    (h : ((Except.ok a : Except ErrMode α), s1) = (Except.ok b, s2)) :
    a = b ∧ s1 = s2 := by
  have h1 := congrArg Prod.fst h
  have h2 := congrArg Prod.snd h
  simp at h1 h2
  exact ⟨h1, h2⟩

theorem try_from_none_of_16_le (v : Nat) (h : 16 ≤ v) :
    DataDirectoryTableField.try_from v = none := by
  unfold DataDirectoryTableField.try_from
  repeat rw [if_neg (by omega)]

theorem try_from_isSome_of_lt_16 : ∀ v < 16, (DataDirectoryTableField.try_from v).isSome := by
  decide

theorem try_from_getD_inj :
    ∀ i < 16, ∀ j < 16,
      (DataDirectoryTableField.try_from i).getD DataDirectoryTableField.EXPORT_TABLE =
        (DataDirectoryTableField.try_from j).getD DataDirectoryTableField.EXPORT_TABLE →
      i = j := by
  decide

/-- Success shape of the data-directory loop: a successful run of
`remaining` iterations starting at `index` yields one entry per iteration,
with the positional tag of entry `i` converted from index `index + i`. -/
theorem parse_data_dirs_from_ok :
    ∀ (remaining index : Nat) (s : List Nat) (l : List DataDirectory) (s1 : List Nat),
      parse_data_dirs_from index remaining s = (Except.ok l, s1) →
      l.length = remaining ∧
      ∀ i (hi : i < l.length),
        (l.get ⟨i, hi⟩).field =
          (DataDirectoryTableField.try_from (index + i)).getD
            DataDirectoryTableField.EXPORT_TABLE := by
  intro remaining
  induction remaining with
  | zero =>
    intro index s l s1 h
    have h0 : parse_data_dirs_from index 0 s = (Except.ok [], s) := rfl
    rw [h0] at h
    obtain ⟨hl, _⟩ := pair_ok_inj h
    subst hl
    exact ⟨rfl, by intro i hi; simp at hi⟩
  | succ r ih =>
    intro index s l s1 h
    unfold parse_data_dirs_from at h
    rcases hva : get_le_u32 s with ⟨ra, s2⟩
    cases ra with
    | error e =>
      rw [run_bind_err hva] at h
      exact absurd h (fun hc => pair_err_ok_absurd hc)
    | ok va =>
      rw [run_bind_ok hva] at h
      rcases hsz : get_le_u32 s2 with ⟨rb, s3⟩
      cases rb with
      | error e =>
        rw [run_bind_err hsz] at h
        exact absurd h (fun hc => pair_err_ok_absurd hc)
      | ok sz =>
        rw [run_bind_ok hsz] at h
        cases htf : DataDirectoryTableField.try_from index with
        | none =>
          rw [htf] at h
          exact absurd h (fun hc => pair_err_ok_absurd hc)
        | some field =>
          rw [htf] at h
          dsimp only at h
          rcases hgo : parse_data_dirs_from (index + 1) r s3 with ⟨rg, s4⟩
          cases rg with
          | error e =>
            rw [run_bind_err hgo] at h
            exact absurd h (fun hc => pair_err_ok_absurd hc)
          | ok rest =>
            rw [run_bind_ok hgo, run_pure] at h
            obtain ⟨hl, _⟩ := pair_ok_inj h
            obtain ⟨hlen, hget⟩ := ih (index + 1) s3 rest s4 hgo
            subst hl
            refine ⟨by simp [hlen], ?_⟩
            intro i hi
            cases i with
            | zero =>
              simp only [List.get, Nat.add_zero]
              rw [htf]
              rfl
            | succ j =>
              have hj : j < rest.length := by
                simp only [List.length_cons] at hi
                omega
              have := hget j hj
              simp only [List.get]
              rw [this]
              congr 2
              omega

/-- Failure of the data-directory loop whenever it must pass index 16. -/
theorem parse_data_dirs_from_err :
    ∀ (remaining index : Nat) (s : List Nat), 16 < index + remaining → index ≤ 16 →
      isErr (parse_data_dirs_from index remaining s).fst = true := by
  intro remaining
  induction remaining with
  | zero =>
    intro index s h16 hidx
    omega
  | succ r ih =>
    intro index s h16 hidx
    unfold parse_data_dirs_from
    rcases hva : get_le_u32 s with ⟨ra, s2⟩
    cases ra with
    | error e => rw [run_bind_err hva]; rfl
    | ok va =>
      rw [run_bind_ok hva]
      rcases hsz : get_le_u32 s2 with ⟨rb, s3⟩
      cases rb with
      | error e => rw [run_bind_err hsz]; rfl
      | ok sz =>
        rw [run_bind_ok hsz]
        cases htf : DataDirectoryTableField.try_from index with
        | none => rfl
        | some field =>
          have hlt : index < 16 := by
            by_contra hge
            rw [try_from_none_of_16_le index (by omega)] at htf
            cases htf
          dsimp only
          rcases hgo : parse_data_dirs_from (index + 1) r s3 with ⟨rg, s4⟩
          cases rg with
          | error e => rw [run_bind_err hgo]; rfl
          | ok rest =>
            have := ih (index + 1) s3 (by omega) (by omega)
            rw [hgo] at this
            simp [isErr] at this

/-- When at least the 17 entries' worth of bytes (8 bytes each for the 16
valid indices and for index 16) are available, the failure past index 16 is
precisely the Unsupported Value error from the index conversion. -/
theorem parse_data_dirs_from_verify :
    ∀ (remaining index : Nat) (s : List Nat), 16 < index + remaining → index ≤ 16 →
      8 * (17 - index) ≤ s.length →
      (parse_data_dirs_from index remaining s).fst =
        Except.error (ErrMode.Backtrack ErrorKind.Verify) := by
  intro remaining
  induction remaining with
  | zero =>
    intro index s h16 hidx hlen
    omega
  | succ r ih =>
    intro index s h16 hidx hlen
    unfold parse_data_dirs_from
    have hva : get_le_u32 s = (Except.ok (le_bytes (s.take 4)), s.drop 4) :=
      get_le_u32_eval s (by omega)
    rw [run_bind_ok hva]
    have hsz : get_le_u32 (s.drop 4) =
        (Except.ok (le_bytes ((s.drop 4).take 4)), (s.drop 4).drop 4) :=
      get_le_u32_eval (s.drop 4) (by rw [List.length_drop]; omega)
    rw [run_bind_ok hsz]
    by_cases hlt : index < 16
    · have hsome : (DataDirectoryTableField.try_from index).isSome :=
        try_from_isSome_of_lt_16 index hlt
      obtain ⟨field, hf⟩ := Option.isSome_iff_exists.1 hsome
      rw [hf]
      dsimp only
      have hrec := ih (index + 1) ((s.drop 4).drop 4) (by omega) (by omega)
        (by rw [List.length_drop, List.length_drop]; omega)
      rcases hgo : parse_data_dirs_from (index + 1) r ((s.drop 4).drop 4) with ⟨rg, s4⟩
      rw [hgo] at hrec
      simp only at hrec
      cases rg with
      | error e =>
        rw [run_bind_err hgo]
        rw [← hrec]
      | ok rest => cases hrec
    · have h16eq : index = 16 := by omega
      subst h16eq
      rw [try_from_none_of_16_le 16 (by omega)]
      rfl

/-- The claim as stated: for `N ≤ 16` the decoded vector has `N` entries
with pairwise distinct positional tags, and for `N > 16` the parse fails
with the Unsupported Value error (`ErrorKind.Verify`). -/
def claim_C8_prop : Prop :=
  (∀ n s l s1, n ≤ 16 → parse_data_dirs n s = (Except.ok l, s1) →
     l.length = n ∧ (l.map (fun d => d.field)).Nodup) ∧
  (∀ n s, 16 < n →
     (parse_data_dirs n s).fst = Except.error (ErrMode.Backtrack ErrorKind.Verify))

/-- C8 counterexample: with `number_of_rva_and_sizes = 17` and an
optional-header slice holding exactly the 128 bytes of 16 entries, the loop
fails while READING entry 16 — a short-slice failure (`Slice`), not the
Unsupported Value error (`Verify`) the claim requires for every N > 16. -/
theorem C8_counterexample : ¬ claim_C8_prop := by
  intro h
  have h1 := h.2 17 (List.replicate 128 0) (by omega)
  have h2 : (parse_data_dirs 17 (List.replicate 128 0)).fst =
      Except.error (ErrMode.Backtrack ErrorKind.Slice) := rfl
  rw [h2] at h1
  exact absurd (Except.error.inj h1) (by decide)

/-- C8 amended: a successful parse with `number_of_rva_and_sizes = N ≤ 16`
yields exactly N entries whose positional tags are `try_from i` for array
index i — pairwise distinct; for N > 16 the parse always fails, and the
failure is the Unsupported Value error (`Verify`) precisely when the 8
bytes of entry 16 are still available (at least 136 bytes) — with fewer
bytes the read of entry 16 fails first (`Slice`, as in the
counterexample). -/
theorem C8_data_directory_table :
    (∀ n s l s1, n ≤ 16 → parse_data_dirs n s = (Except.ok l, s1) →
       l.length = n ∧
       (∀ i (hi : i < l.length),
         (l.get ⟨i, hi⟩).field =
           (DataDirectoryTableField.try_from i).getD DataDirectoryTableField.EXPORT_TABLE) ∧
       (l.map (fun d => d.field)).Nodup) ∧
    (∀ n s, 16 < n → isErr (parse_data_dirs n s).fst = true) ∧
    (∀ n s, 16 < n → 136 ≤ s.length →
       (parse_data_dirs n s).fst = Except.error (ErrMode.Backtrack ErrorKind.Verify)) := by
  refine ⟨?_, ?_, ?_⟩
  · intro n s l s1 hn h
    obtain ⟨hlen, hget⟩ := parse_data_dirs_from_ok n 0 s l s1 h
    have hget0 : ∀ i (hi : i < l.length),
        (l.get ⟨i, hi⟩).field =
          (DataDirectoryTableField.try_from i).getD DataDirectoryTableField.EXPORT_TABLE := by
      intro i hi
      have := hget i hi
      rwa [Nat.zero_add] at this
    refine ⟨hlen, hget0, ?_⟩
    have hmap : l.map (fun d => d.field) =
        (List.range n).map (fun i =>
          (DataDirectoryTableField.try_from i).getD DataDirectoryTableField.EXPORT_TABLE) := by
      apply List.ext_get
      · simp [hlen]
      · intro i h1 h2
        rw [List.get_map, List.get_map, hget0 i (by simpa using h1), List.get_range]
    rw [hmap]
    refine List.Nodup.map_on ?_ (List.nodup_range n)
    intro x hx y hy hxy
    exact try_from_getD_inj x (by have := List.mem_range.1 hx; omega)
      y (by have := List.mem_range.1 hy; omega) hxy
  · intro n s hn
    exact parse_data_dirs_from_err n 0 s (by omega) (by omega)
  · intro n s hn hlen
    exact parse_data_dirs_from_verify n 0 s (by omega) (by omega) (by omega)

/-- C8 witness: a concrete successful 2-entry table and a concrete
17-entry failure with the Unsupported Value error. -/
theorem C8_data_directory_table_witness :
    (∃ l s1, parse_data_dirs 2 (List.replicate 16 0) = (Except.ok l, s1) ∧ l.length = 2) ∧
    (parse_data_dirs 17 (List.replicate 136 0)).fst =
      Except.error (ErrMode.Backtrack ErrorKind.Verify) := by
  constructor
  · refine ⟨_, _, rfl, ?_⟩
    exact (C8_data_directory_table.1 2 (List.replicate 16 0) _ _ (by omega) rfl).1
  · exact C8_data_directory_table.2.2 17 (List.replicate 136 0) (by omega) (by simp)

/-! ## C6: optional-header field layout -/

theorem run_map {α β : Type} (g : α → β) (p : P α) (s : List Nat) :
    (g <$> p) s =
      match p s with
      | (Except.ok a, s1) => (Except.ok (g a), s1)
      | (Except.error e, s1) => (Except.error e, s1) := by
  show (p >>= fun a => pure (g a)) s = _
  rw [run_bind]
  rcases p s with ⟨r, s1⟩
  cases r <;> rfl

/-- Byte-level layout of the 32-bit optional-header branch: with the PE32
magic `0x10b`, a recognised subsystem value and a zero directory count,
every field decodes from the listed byte offsets; `base_of_data` sits at
offset 24 and `image_base` is the FOUR bytes at offsets 28-31; the
stack/heap fields are four bytes each at 72, 76, 80, 84. -/
theorem parse_optional_header_32_layout (obs : List Nat) (ss : OptionalHeaderSubSystem)
    (hlen : obs.length = 96)
    (hmag : le_bytes (obs.take 2) = 0x10b)
    (hss : OptionalHeaderSubSystem.try_from (le_bytes ((obs.drop 68).take 2)) = some ss)
    (hrva : le_bytes ((obs.drop 92).take 4) = 0) :
    parse_optional_header obs =
      (Except.ok (OptionalHeader.ImageOptionalHeader32 {
        common := {
          magic := 0x10b,
          major_linker_version := le_bytes ((obs.drop 2).take 1),
          minor_linker_version := le_bytes ((obs.drop 3).take 1),
          size_of_code := le_bytes ((obs.drop 4).take 4),
          size_of_initialized_data := le_bytes ((obs.drop 8).take 4),
          size_of_uninitialized_data := le_bytes ((obs.drop 12).take 4),
          address_of_entry_point := le_bytes ((obs.drop 16).take 4),
          base_of_code := le_bytes ((obs.drop 20).take 4) },
        base_of_data := le_bytes ((obs.drop 24).take 4),
        image_base := le_bytes ((obs.drop 28).take 4),
        section_alignment := le_bytes ((obs.drop 32).take 4),
        file_alignment := le_bytes ((obs.drop 36).take 4),
        major_operating_system_version := le_bytes ((obs.drop 40).take 2),
        minor_operating_system_version := le_bytes ((obs.drop 42).take 2),
        major_image_version := le_bytes ((obs.drop 44).take 2),
        minor_image_version := le_bytes ((obs.drop 46).take 2),
        major_subsystem_version := le_bytes ((obs.drop 48).take 2),
        minor_subsystem_version := le_bytes ((obs.drop 50).take 2),
        win32_version_value := le_bytes ((obs.drop 52).take 4),
        size_of_image := le_bytes ((obs.drop 56).take 4),
        size_of_headers := le_bytes ((obs.drop 60).take 4),
        checksum := le_bytes ((obs.drop 64).take 4),
        subsystem := ss,
        dll_characteristics := DLLCharacteristics.from_u16 (le_bytes ((obs.drop 70).take 2)),
        size_of_stack_reserve := le_bytes ((obs.drop 72).take 4),
        size_of_stack_commit := le_bytes ((obs.drop 76).take 4),
        size_of_heap_reserve := le_bytes ((obs.drop 80).take 4),
        size_of_heap_commit := le_bytes ((obs.drop 84).take 4),
        loader_flags := le_bytes ((obs.drop 88).take 4),
        number_of_rva_and_sizes := 0,
        data_directories := [] }), obs.drop 96) := by
  simp [parse_optional_header, parse_common_fields, parse_optional_32,
    parse_data_dirs, parse_data_dirs_from, run_bind, run_pure, run_map,
    get_le_u16_eval, get_le_u32_eval, get_single_u8_eval,
    List.drop_drop, List.length_drop, hlen, hmag, hss, hrva]

/-- Byte-level layout of the 64-bit optional-header branch: with the PE32+
magic `0x20b` there is NO `base_of_data`; `image_base` is the EIGHT bytes
at offsets 24-31, and the stack/heap fields are eight bytes each at 72,
80, 88, 96 (so only `size_of_stack_reserve` starts at the same offset as
in the 32-bit variant). -/
theorem parse_optional_header_64_layout (obs : List Nat) (ss : OptionalHeaderSubSystem)
    (hlen : obs.length = 112)
    (hmag : le_bytes (obs.take 2) = 0x20b)
    (hss : OptionalHeaderSubSystem.try_from (le_bytes ((obs.drop 68).take 2)) = some ss)
    (hrva : le_bytes ((obs.drop 108).take 4) = 0) :
    parse_optional_header obs =
      (Except.ok (OptionalHeader.ImageOptionalHeader64 {
        common := {
          magic := 0x20b,
          major_linker_version := le_bytes ((obs.drop 2).take 1),
          minor_linker_version := le_bytes ((obs.drop 3).take 1),
          size_of_code := le_bytes ((obs.drop 4).take 4),
          size_of_initialized_data := le_bytes ((obs.drop 8).take 4),
          size_of_uninitialized_data := le_bytes ((obs.drop 12).take 4),
          address_of_entry_point := le_bytes ((obs.drop 16).take 4),
          base_of_code := le_bytes ((obs.drop 20).take 4) },
        image_base := le_bytes ((obs.drop 24).take 8),
        section_alignment := le_bytes ((obs.drop 32).take 4),
        file_alignment := le_bytes ((obs.drop 36).take 4),
        major_operating_system_version := le_bytes ((obs.drop 40).take 2),
        minor_operating_system_version := le_bytes ((obs.drop 42).take 2),
        major_image_version := le_bytes ((obs.drop 44).take 2),
        minor_image_version := le_bytes ((obs.drop 46).take 2),
        major_subsystem_version := le_bytes ((obs.drop 48).take 2),
        minor_subsystem_version := le_bytes ((obs.drop 50).take 2),
        win32_version_value := le_bytes ((obs.drop 52).take 4),
        size_of_image := le_bytes ((obs.drop 56).take 4),
        size_of_headers := le_bytes ((obs.drop 60).take 4),
        checksum := le_bytes ((obs.drop 64).take 4),
        subsystem := ss,
        dll_characteristics := DLLCharacteristics.from_u16 (le_bytes ((obs.drop 70).take 2)),
        size_of_stack_reserve := le_bytes ((obs.drop 72).take 8),
        size_of_stack_commit := le_bytes ((obs.drop 80).take 8),
        size_of_heap_reserve := le_bytes ((obs.drop 88).take 8),
        size_of_heap_commit := le_bytes ((obs.drop 96).take 8),
        loader_flags := le_bytes ((obs.drop 104).take 4),
        number_of_rva_and_sizes := 0,
        data_directories := [] }), obs.drop 112) := by
  simp [parse_optional_header, parse_common_fields, parse_optional_64,
    parse_data_dirs, parse_data_dirs_from, run_bind, run_pure, run_map,
    get_le_u16_eval, get_le_u32_eval, get_le_u64_eval, get_single_u8_eval,
    List.drop_drop, List.length_drop, hlen, hmag, hss, hrva]

/-- The claim as stated, in its refutable part: in the 32-bit variant the
width-sensitive fields (image base, stack/heap reserve/commit) decode as
4-byte little-endian values from the SAME relative field positions at
which the 64-bit variant reads them (offsets 24, 72, 80, 88, 96 within the
optional header, as established by `parse_optional_header_64_layout`). -/
def claim_C6_prop : Prop :=
  ∀ (obs : List Nat) (h32 : ImageOptionalHeader32) (s1 : List Nat),
    parse_optional_header obs = (Except.ok (OptionalHeader.ImageOptionalHeader32 h32), s1) →
    h32.image_base = le_bytes ((obs.drop 24).take 4) ∧
    h32.size_of_stack_reserve = le_bytes ((obs.drop 72).take 4) ∧
    h32.size_of_stack_commit = le_bytes ((obs.drop 80).take 4) ∧
    h32.size_of_heap_reserve = le_bytes ((obs.drop 88).take 4) ∧
    h32.size_of_heap_commit = le_bytes ((obs.drop 96).take 4)

/-- A concrete 96-byte PE32 optional header with pairwise distinct marker
bytes: magic `0x10b`, subsystem value 2 at offset 68, directory count 0. -/
def c6_obs : List Nat :=
  [0x0b, 0x01] ++ (List.range 66).map (fun i => i + 2) ++ [2, 0] ++
    (List.range 22).map (fun i => i + 70) ++ [0, 0, 0, 0]

/-- A concrete 112-byte PE32+ optional header in the same style, magic
`0x20b`, subsystem value 2 at offset 68, directory count 0. -/
def c6_obs64 : List Nat :=
  [0x0b, 0x02] ++ (List.range 66).map (fun i => i + 2) ++ [2, 0] ++
    (List.range 38).map (fun i => i + 70) ++ [0, 0, 0, 0]

/-- C6 counterexample: on `c6_obs` the 32-bit parse succeeds, but its
image base is decoded from bytes 28-31, not from the position 24 where
the 64-bit variant reads it — the 32-bit variant inserts `base_of_data`
at 24, shifting the field. -/
theorem C6_counterexample : ¬ claim_C6_prop := by
  intro h
  have heq := parse_optional_header_32_layout c6_obs
    OptionalHeaderSubSystem.IMAGE_SUBSYSTEM_WINDOWS_GUI
    (by decide) (by decide) (by decide) (by decide)
  have h1 := h c6_obs _ _ heq
  exact absurd h1.1 (by decide)

/-- C6 amended: the 32-bit and 64-bit optional-header variants share the
common fields (offsets 0-23) and the fields from `section_alignment`
(offset 32) through the DLL characteristics (offset 70-71), but the
width-sensitive region differs in MORE than width: the 32-bit variant
inserts `base_of_data` at offset 24 and reads `image_base` as 4 bytes at
offset 28, while the 64-bit variant reads `image_base` as 8 bytes at
offset 24; the stack/heap reserve/commit block starts at offset 72 in
both, read as four 4-byte fields (72, 76, 80, 84) in the 32-bit variant
and four 8-byte fields (72, 80, 88, 96) in the 64-bit variant, so only
`size_of_stack_reserve` shares its offset. -/
theorem C6_optional_header_layout :
    (∀ (obs : List Nat) (ss : OptionalHeaderSubSystem),
      obs.length = 96 →
      le_bytes (obs.take 2) = 0x10b →
      OptionalHeaderSubSystem.try_from (le_bytes ((obs.drop 68).take 2)) = some ss →
      le_bytes ((obs.drop 92).take 4) = 0 →
      parse_optional_header obs =
        (Except.ok (OptionalHeader.ImageOptionalHeader32 {
          common := {
            magic := 0x10b,
            major_linker_version := le_bytes ((obs.drop 2).take 1),
            minor_linker_version := le_bytes ((obs.drop 3).take 1),
            size_of_code := le_bytes ((obs.drop 4).take 4),
            size_of_initialized_data := le_bytes ((obs.drop 8).take 4),
            size_of_uninitialized_data := le_bytes ((obs.drop 12).take 4),
            address_of_entry_point := le_bytes ((obs.drop 16).take 4),
            base_of_code := le_bytes ((obs.drop 20).take 4) },
          base_of_data := le_bytes ((obs.drop 24).take 4),
          image_base := le_bytes ((obs.drop 28).take 4),
          section_alignment := le_bytes ((obs.drop 32).take 4),
          file_alignment := le_bytes ((obs.drop 36).take 4),
          major_operating_system_version := le_bytes ((obs.drop 40).take 2),
          minor_operating_system_version := le_bytes ((obs.drop 42).take 2),
          major_image_version := le_bytes ((obs.drop 44).take 2),
          minor_image_version := le_bytes ((obs.drop 46).take 2),
          major_subsystem_version := le_bytes ((obs.drop 48).take 2),
          minor_subsystem_version := le_bytes ((obs.drop 50).take 2),
          win32_version_value := le_bytes ((obs.drop 52).take 4),
          size_of_image := le_bytes ((obs.drop 56).take 4),
          size_of_headers := le_bytes ((obs.drop 60).take 4),
          checksum := le_bytes ((obs.drop 64).take 4),
          subsystem := ss,
          dll_characteristics := DLLCharacteristics.from_u16 (le_bytes ((obs.drop 70).take 2)),
          size_of_stack_reserve := le_bytes ((obs.drop 72).take 4),
          size_of_stack_commit := le_bytes ((obs.drop 76).take 4),
          size_of_heap_reserve := le_bytes ((obs.drop 80).take 4),
          size_of_heap_commit := le_bytes ((obs.drop 84).take 4),
          loader_flags := le_bytes ((obs.drop 88).take 4),
          number_of_rva_and_sizes := 0,
          data_directories := [] }), obs.drop 96)) ∧
    (∀ (obs : List Nat) (ss : OptionalHeaderSubSystem),
      obs.length = 112 →
      le_bytes (obs.take 2) = 0x20b →
      OptionalHeaderSubSystem.try_from (le_bytes ((obs.drop 68).take 2)) = some ss →
      le_bytes ((obs.drop 108).take 4) = 0 →
      parse_optional_header obs =
        (Except.ok (OptionalHeader.ImageOptionalHeader64 {
          common := {
            magic := 0x20b,
            major_linker_version := le_bytes ((obs.drop 2).take 1),
            minor_linker_version := le_bytes ((obs.drop 3).take 1),
            size_of_code := le_bytes ((obs.drop 4).take 4),
            size_of_initialized_data := le_bytes ((obs.drop 8).take 4),
            size_of_uninitialized_data := le_bytes ((obs.drop 12).take 4),
            address_of_entry_point := le_bytes ((obs.drop 16).take 4),
            base_of_code := le_bytes ((obs.drop 20).take 4) },
          image_base := le_bytes ((obs.drop 24).take 8),
          section_alignment := le_bytes ((obs.drop 32).take 4),
          file_alignment := le_bytes ((obs.drop 36).take 4),
          major_operating_system_version := le_bytes ((obs.drop 40).take 2),
          minor_operating_system_version := le_bytes ((obs.drop 42).take 2),
          major_image_version := le_bytes ((obs.drop 44).take 2),
          minor_image_version := le_bytes ((obs.drop 46).take 2),
          major_subsystem_version := le_bytes ((obs.drop 48).take 2),
          minor_subsystem_version := le_bytes ((obs.drop 50).take 2),
          win32_version_value := le_bytes ((obs.drop 52).take 4),
          size_of_image := le_bytes ((obs.drop 56).take 4),
          size_of_headers := le_bytes ((obs.drop 60).take 4),
          checksum := le_bytes ((obs.drop 64).take 4),
          subsystem := ss,
          dll_characteristics := DLLCharacteristics.from_u16 (le_bytes ((obs.drop 70).take 2)),
          size_of_stack_reserve := le_bytes ((obs.drop 72).take 8),
          size_of_stack_commit := le_bytes ((obs.drop 80).take 8),
          size_of_heap_reserve := le_bytes ((obs.drop 88).take 8),
          size_of_heap_commit := le_bytes ((obs.drop 96).take 8),
          loader_flags := le_bytes ((obs.drop 104).take 4),
          number_of_rva_and_sizes := 0,
          data_directories := [] }), obs.drop 112)) :=
  ⟨parse_optional_header_32_layout, parse_optional_header_64_layout⟩

/-- Projection helpers for the witness: the image-base field of a parsed
32-bit resp. 64-bit optional header, if that is what the result is. -/
def image_base_32 : Except ErrMode OptionalHeader → Option Nat
  | Except.ok (OptionalHeader.ImageOptionalHeader32 h) => some h.image_base
  | _ => none

def image_base_64 : Except ErrMode OptionalHeader → Option Nat
  | Except.ok (OptionalHeader.ImageOptionalHeader64 h) => some h.image_base
  | _ => none

/-- C6 witness: both layout characterizations instantiated at concrete
optional headers, exposing the differing image-base offsets (28 with 4
bytes in the 32-bit variant, 24 with 8 bytes in the 64-bit variant). -/
theorem C6_optional_header_layout_witness :
    image_base_32 (parse_optional_header c6_obs).fst =
      some (le_bytes ((c6_obs.drop 28).take 4)) ∧
    image_base_64 (parse_optional_header c6_obs64).fst =
      some (le_bytes ((c6_obs64.drop 24).take 8)) := by
  constructor
  · rw [C6_optional_header_layout.1 c6_obs
      OptionalHeaderSubSystem.IMAGE_SUBSYSTEM_WINDOWS_GUI
      (by decide) (by decide) (by decide) (by decide)]
    rfl
  · rw [C6_optional_header_layout.2 c6_obs64
      OptionalHeaderSubSystem.IMAGE_SUBSYSTEM_WINDOWS_GUI
      (by decide) (by decide) (by decide) (by decide)]
    rfl
